import Mathlib

/-!
# pcre2_nif: option model and result materialisation

A shallow embedding of `c_src/pcre2_nif.cc`.  The pattern-matching engine
(PCRE2) and the host runtime (erl_nif) are external: the engine is a record of
functions that every theorem quantifies over, the host's term primitives are
modelled after the erl_nif documentation.

Platform: LP64 (`PCRE2_SIZE` = `size_t` is 64 bits wide, `int` and
`unsigned` are 32 bits wide, conversions to `int` wrap modulo 2^32).
-/

namespace Pcre2Nif

/-! ## Host terms (erl_nif) -/

/-- Erlang terms as a NIF sees them (`ERL_NIF_TERM`).  A list is `nil` or a
`cons` cell whose tail is any term, so improper lists are representable.  A
resource term carries the index of its object in the environment. -/
inductive Term where
  | atom (name : String)
  | int (n : Int)
  | binary (bytes : List Nat)
  | nil
  | cons (h t : Term)
  | tuple (elems : List Term)
  | resource (ref : Nat)
  deriving Repr, Inhabited

mutual
/-- Term identity, `enif_is_identical` (also the meaning of `==` on two
`ERL_NIF_TERM` words when one side is an atom). -/
def enif_is_identical : Term → Term → Bool
  | .atom a, .atom b => a == b
  | .int a, .int b => a == b
  | .binary a, .binary b => a == b
  | .nil, .nil => true
  | .cons h1 t1, .cons h2 t2 => enif_is_identical h1 h2 && enif_is_identical t1 t2
  | .tuple xs, .tuple ys => identical_elems xs ys
  | .resource a, .resource b => a == b
  | _, _ => false
/-- Pointwise identity of two element vectors. -/
def identical_elems : List Term → List Term → Bool
  | [], [] => true
  | x :: xs, y :: ys => enif_is_identical x y && identical_elems xs ys
  | _, _ => false
end

/-- The host test `enif_is_atom`. -/
def enif_is_atom : Term → Bool
  | .atom _ => true
  | _ => false

/-- The host test `enif_is_empty_list`. -/
def enif_is_empty_list : Term → Bool
  | .nil => true
  | _ => false

/-- The host accessor `enif_get_list_cell`: head and tail of a non-empty list. -/
def enif_get_list_cell : Term → Option (Term × Term)
  | .cons h t => some (h, t)
  | _ => none

/-- The host accessor `enif_get_tuple`: the element vector; its length is the arity. -/
def enif_get_tuple : Term → Option (List Term)
  | .tuple elems => some elems
  | _ => none

/-- The host accessor `enif_get_int`: succeeds on integers that fit a 32-bit `int`. -/
def enif_get_int : Term → Option Int
  | .int n => if -2147483648 ≤ n ∧ n < 2147483648 then some n else none
  | _ => none

/-- The host accessor `enif_get_uint`: succeeds on integers that fit a 32-bit `unsigned`. -/
def enif_get_uint : Term → Option Nat
  | .int n => if 0 ≤ n ∧ n < 4294967296 then some n.toNat else none
  | _ => none

/-- The host constructor `enif_make_atom`. -/
def enif_make_atom (name : String) : Term := .atom name

/-- The host constructor `enif_make_int`. -/
def enif_make_int (i : Int) : Term := .int i

/-- The host constructor `enif_make_uint`. -/
def enif_make_uint (u : Nat) : Term := .int u

/-- The host constructor `enif_make_tuple2`. -/
def enif_make_tuple2 (a b : Term) : Term := .tuple [a, b]

/-- The host constructor `enif_make_tuple3`. -/
def enif_make_tuple3 (a b c : Term) : Term := .tuple [a, b, c]

/-- The host constructor `enif_make_list_cell`. -/
def enif_make_list_cell (h t : Term) : Term := .cons h t

/-- The host constructor `enif_make_list1`. -/
def enif_make_list1 (e : Term) : Term := .cons e .nil

/-- The host accessor `enif_inspect_iolist_as_binary`: the bytes of an iolist
(a binary, or a possibly improper list of bytes, binaries and iolists whose
tail is a binary or the empty list); `none` when the term is not an iolist. -/
def enif_inspect_iolist_as_binary : Term → Option (List Nat)
  | .nil => some []
  | .binary bs => some bs
  | .cons (.int n) t =>
    if 0 ≤ n ∧ n < 256 then (enif_inspect_iolist_as_binary t).map (fun r => n.toNat :: r)
    else none
  | .cons h t =>
    match enif_inspect_iolist_as_binary h, enif_inspect_iolist_as_binary t with
    | some a, some b => some (a ++ b)
    | _, _ => none
  | _ => none

/-- A proper Erlang list built from its elements. -/
def Term.ofList : List Term → Term
  | [] => .nil
  | x :: xs => .cons x (Term.ofList xs)

/-! ## Static atoms (`init_atoms`) -/

def a_ok : Term := enif_make_atom "ok"
def a_error : Term := enif_make_atom "error"
def a_match : Term := enif_make_atom "match"
def a_nomatch : Term := enif_make_atom "nomatch"
def a_capture : Term := enif_make_atom "capture"
def a_global : Term := enif_make_atom "global"
def a_offset : Term := enif_make_atom "offset"
def a_all : Term := enif_make_atom "all"
def a_all_but_first : Term := enif_make_atom "all_but_first"
def a_first : Term := enif_make_atom "first"
def a_none : Term := enif_make_atom "none"
def a_index : Term := enif_make_atom "index"
def a_binary : Term := enif_make_atom "binary"
def a_caseless : Term := enif_make_atom "caseless"
def a_max_mem : Term := enif_make_atom "max_mem"
def a_err_enif_alloc_binary : Term := enif_make_atom "enif_alloc_binary"
def a_err_enif_alloc_resource : Term := enif_make_atom "enif_alloc_resource"
def a_extended : Term := enif_make_atom "extended"
def a_dotall : Term := enif_make_atom "dotall"
def a_multiline : Term := enif_make_atom "multiline"

/-! ## Engine constants (`pcre2.h`) and machine integers -/

def PCRE2_CASELESS : Nat := 0x00000008
def PCRE2_DOTALL : Nat := 0x00000020
def PCRE2_EXTENDED : Nat := 0x00000080
def PCRE2_MULTILINE : Nat := 0x00000400

/-- The reserved offset of an unset group, `~(PCRE2_SIZE)0`. -/
def PCRE2_UNSET : Nat := 2 ^ 64 - 1

/-- Subtraction of two `PCRE2_SIZE` values (unsigned, 64 bits). -/
def size_sub (a b : Nat) : Nat := (a + (2 ^ 64 - b % 2 ^ 64)) % 2 ^ 64

/-- Conversion of an unsigned value to `int` (32 bits, two's complement). -/
def to_int (x : Nat) : Int :=
  if x % 2 ^ 32 < 2 ^ 31 then (x % 2 ^ 32 : Nat) else (x % 2 ^ 32 : Nat) - 2 ^ 32

/-! ## Option structs -/

/-- The enum `matchoptions::value_spec`. -/
inductive value_spec where
  | VS_ALL
  | VS_ALL_BUT_FIRST
  | VS_FIRST
  | VS_NONE
  | VS_VLIST
  deriving Repr, DecidableEq

/-- The enum `matchoptions::capture_type`. -/
inductive capture_type where
  | CT_INDEX
  | CT_LIST
  | CT_BINARY
  deriving Repr, DecidableEq

/-- The struct `matchoptions`. -/
structure matchoptions where
  caseless : Bool
  offset : Nat
  vs : value_spec
  ct : capture_type
  vlist : Term

/-- The constructor `matchoptions::matchoptions`. -/
def matchoptions.init : matchoptions :=
  { caseless := false, offset := 0, vs := .VS_ALL, ct := .CT_INDEX, vlist := .nil }

/-! ## Engine and environment -/

/-- A compiled pattern (`pcre2_code*`), identified by the engine. -/
structure pcre2_code where
  id : Nat
  deriving Repr, DecidableEq

/-- A match-data block (`pcre2_match_data`): the number of offset pairs and
the flat offset vector the engine writes. -/
structure pcre2_match_data where
  ovector_count : Nat
  ovector : List Nat
  deriving Repr, DecidableEq

/-- The external engine.  `pcre2_compile` yields a compiled pattern or an
error code with an error offset; `pcre2_match_data_create_from_pattern` yields
a block or `none` (a null pointer); `pcre2_match` takes the pattern, the
subject bytes, the start offset and the block, and yields its return code
together with the block as it left it. -/
structure pcre2_engine where
  pcre2_compile : List Nat → Nat → Except (Int × Nat) pcre2_code
  pcre2_match_data_create_from_pattern : pcre2_code → Option pcre2_match_data
  pcre2_match : pcre2_code → List Nat → Nat → Option pcre2_match_data →
    Int × Option pcre2_match_data

/-- Calls made into the engine, in the order they happen. -/
inductive engine_call where
  | compile (pattern : List Nat) (options : Nat)
  | code_free (code : pcre2_code)
  | match_data_create (code : pcre2_code)
  | scan (code : pcre2_code) (subject : List Nat) (offset : Nat)
  deriving Repr, DecidableEq

/-- The struct `re_handle`: a pointer to a compiled pattern, or null. -/
structure re_handle where
  re : Option pcre2_code
  deriving Repr, DecidableEq

/-- The state around a NIF call: the live objects of `re_resource_type`
(a resource term holds an index into them), whether `enif_alloc_resource`
will succeed, and the log of engine calls. -/
structure nif_env where
  resources : List re_handle
  alloc_resource_ok : Bool
  calls : List engine_call

/-- What a NIF hands back: a term, the `badarg` exception of
`enif_make_badarg`, or `undefined` where C leaves the behaviour undefined
(a read outside an array, a null dereference). -/
inductive nif_result where
  | term (t : Term)
  | badarg
  | undefined

/-- The host accessor `enif_get_resource` for `re_resource_type`. -/
def enif_get_resource (env : nif_env) : Term → Option re_handle
  | .resource ref => env.resources[ref]?
  | _ => none

/-! ## Handle cleanup -/

/-- The function `cleanup_obj_ptr`: frees a non-null pattern and nulls the pointer. -/
def cleanup_obj_ptr (ptr : Option pcre2_code) (calls : List engine_call) :
    Option pcre2_code × List engine_call :=
  match ptr with
  | some code => (none, calls ++ [engine_call.code_free code])
  | none => (none, calls)

/-- The function `cleanup_handle`. -/
def cleanup_handle (handle : re_handle) (calls : List engine_call) :
    re_handle × List engine_call :=
  let r := cleanup_obj_ptr handle.re calls
  ({ re := r.1 }, r.2)

/-- The resource destructor `re_resource_cleanup`. -/
def re_resource_cleanup (handle : re_handle) (calls : List engine_call) :
    re_handle × List engine_call :=
  cleanup_handle handle calls

/-- The function `error`: the tuple `{error, Err}`. -/
def error (err : Term) : Term := enif_make_tuple2 a_error err

/-- The function `make_error`: `{error, Code, Offset}`, the offset cast to `unsigned`. -/
def make_error (error_code : Int) (error_offset : Nat) : Term :=
  enif_make_tuple3 a_error (enif_make_int error_code) (enif_make_uint (error_offset % 2 ^ 32))

/-! ## Compile options -/

/-- The loop of `parse_compile_options` over the list cells; the second
component is the flag word as the loop leaves it. -/
def parse_compile_options_loop : Term → Nat → Bool × Nat
  | .cons H T, opts =>
    if enif_is_identical H a_caseless then parse_compile_options_loop T (opts ||| PCRE2_CASELESS)
    else if enif_is_identical H a_extended then
      parse_compile_options_loop T (opts ||| PCRE2_EXTENDED)
    else if enif_is_identical H a_dotall then parse_compile_options_loop T (opts ||| PCRE2_DOTALL)
    else if enif_is_identical H a_multiline then
      parse_compile_options_loop T (opts ||| PCRE2_MULTILINE)
    else
      match enif_get_tuple H with
      | some tuple =>
        if tuple.length = 2 then
          if enif_is_identical (tuple.getD 0 .nil) a_max_mem then
            match enif_get_int (tuple.getD 1 .nil) with
            | some _ => parse_compile_options_loop T opts
            | none => (false, opts)
          else parse_compile_options_loop T opts
        else parse_compile_options_loop T opts
      | none => (false, opts)
  | _, opts => (true, opts)

/-- The function `parse_compile_options`. -/
def parse_compile_options (list : Term) (opts : Nat) : Bool × Nat :=
  if enif_is_empty_list list then (true, opts)
  else parse_compile_options_loop list opts

/-- The function `compile_impl`; `argv1` is present exactly when `argc == 2`. -/
def compile_impl (eng : pcre2_engine) (env : nif_env) (argv0 : Term) (argv1 : Option Term) :
    nif_result × nif_env :=
  match enif_inspect_iolist_as_binary argv0 with
  | none => (.badarg, env)
  | some pdata =>
    if env.alloc_resource_ok = false then (.term (error a_err_enif_alloc_resource), env)
    else
      let handle : re_handle := { re := none }
      let parsed : Bool × Nat :=
        match argv1 with
        | some list => parse_compile_options list 0
        | none => (true, 0)
      if parsed.1 = false then
        let c1 := cleanup_handle handle env.calls
        -- enif_release_resource drops the only reference: the destructor runs
        let c2 := re_resource_cleanup c1.1 c1.2
        (.badarg, { env with calls := c2.2 })
      else
        let pcre2opts := parsed.2
        let calls := env.calls ++ [engine_call.compile pdata pcre2opts]
        match eng.pcre2_compile pdata pcre2opts with
        | .error (error_code, error_offset) =>
          let err := make_error error_code error_offset
          let c1 := cleanup_handle handle calls
          let c2 := re_resource_cleanup c1.1 c1.2
          (.term err, { env with calls := c2.2 })
        | .ok code =>
          let handle : re_handle := { re := some code }
          let result := Term.resource env.resources.length
          (.term (enif_make_tuple2 a_ok result),
            { env with resources := env.resources ++ [handle], calls := calls })

/-! ## Match options -/

/-- The function `parse_match_capture_options`. -/
def parse_match_capture_options (opts : matchoptions) (tuple : List Term) (tuplearity : Nat) :
    matchoptions :=
  let t1 := tuple.getD 1 .nil
  let r : matchoptions × Bool :=
    if enif_is_atom t1 then
      (if enif_is_identical t1 a_all then { opts with vs := .VS_ALL }
       else if enif_is_identical t1 a_all_but_first then { opts with vs := .VS_ALL_BUT_FIRST }
       else if enif_is_identical t1 a_first then { opts with vs := .VS_FIRST }
       else if enif_is_identical t1 a_none then { opts with vs := .VS_NONE }
       else opts, true)
    else (opts, false)
  let opts := r.1
  let vs_set := r.2
  if tuplearity = 3 ∧ vs_set = true then
    if enif_is_identical (tuple.getD 2 .nil) a_index then { opts with ct := .CT_INDEX }
    else if enif_is_identical (tuple.getD 2 .nil) a_binary then { opts with ct := .CT_BINARY }
    else opts
  else opts

/-- The loop of `parse_match_options` over the list cells; the second
component is the option struct as the loop leaves it. -/
def parse_match_options_loop : Term → matchoptions → Bool × matchoptions
  | .cons H T, opts =>
    match enif_get_tuple H with
    | some tuple =>
      if tuple.length = 2 ∧ enif_is_identical (tuple.getD 0 .nil) a_offset = true then
        match enif_get_uint (tuple.getD 1 .nil) with
        | none => (false, opts)
        | some offset => parse_match_options_loop T { opts with offset := offset }
      else if (tuple.length = 2 ∨ tuple.length = 3)
          ∧ enif_is_identical (tuple.getD 0 .nil) a_capture = true then
        parse_match_options_loop T (parse_match_capture_options opts tuple tuple.length)
      else parse_match_options_loop T opts
    | none => (false, opts)
  | _, opts => (true, opts)

/-- The function `parse_match_options`. -/
def parse_match_options (list : Term) (opts : matchoptions) : Bool × matchoptions :=
  if enif_is_empty_list list then (true, opts)
  else parse_match_options_loop list opts

/-! ## Result materialisation -/

/-- The bytes `memcpy(dst, data + start, size)` copies out of the subject
buffer: nothing is read when `size` is zero, and a read past the end of the
buffer is undefined. -/
def memcpy_from (data : List Nat) (start size : Nat) : Option (List Nat) :=
  if size = 0 then some []
  else if start + size ≤ data.length then some ((data.drop start).take size)
  else none

/-- The function `mres`: one value of the result, shaped by the capture type. -/
def mres (subj : List Nat) (match_start match_end : Nat) (ct : capture_type) : Option Term :=
  let match_size := size_sub match_end match_start
  match ct with
  | .CT_BINARY =>
    match memcpy_from subj match_start match_size with
    | some bytes => some (Term.binary bytes)
    | none => none
  | _ =>
    if match_start = PCRE2_UNSET then
      some (enif_make_tuple2 (enif_make_int (-1)) (enif_make_int 0))
    else
      some (enif_make_tuple2 (enif_make_int (to_int match_start))
        (enif_make_int (to_int match_size)))

/-- The function `number_of_capturing_groups`. -/
def number_of_capturing_groups (nr_groups : Int) (vs : value_spec) : Int :=
  match vs with
  | .VS_NONE => 0
  | .VS_FIRST => 1
  | _ => nr_groups

/-- The read `ovec[i]` of the offset vector; outside the vector it is undefined. -/
def ovec_read (ovec : List Nat) (i : Int) : Option Nat :=
  if 0 ≤ i then ovec[i.toNat]? else none

/-- The loop `for (int i = last_ix; i >= first_ix; i -= 2)` of `match_impl`,
from index `i` on, prepending each value to `list`. -/
def match_loop (subj : List Nat) (ovec : List Nat) (ct : capture_type) (first_ix : Int)
    (i : Int) (list : Term) : Option Term :=
  if first_ix ≤ i then
    match ovec_read ovec i, ovec_read ovec (i + 1) with
    | some s, some e =>
      match mres subj s e ct with
      | some res => match_loop subj ovec ct first_ix (i - 2) (enif_make_list_cell res list)
      | none => none
    | _, _ => none
  else some list
termination_by (i - first_ix + 1).toNat
decreasing_by omega

/-- The initial value of `last_ix`: `2 * (count - 1)` in `uint32_t`, converted to `int`. -/
def last_ix_of (ovector_count : Nat) : Int :=
  to_int ((2 * ((ovector_count % 2 ^ 32 + (2 ^ 32 - 1)) % 2 ^ 32)) % 2 ^ 32)

/-- The tail of `match_impl` after a non-negative return of the scan: the
result built from the match-data block. -/
def match_result (subj : List Nat) (opts : matchoptions) (md : pcre2_match_data) : nif_result :=
  let first_ix : Int := 0
  let last_ix : Int := last_ix_of md.ovector_count
  let ovec := md.ovector
  if opts.vs = .VS_NONE then .term a_match
  else if opts.vs = .VS_FIRST then
    match ovec_read ovec 0, ovec_read ovec 1 with
    | some s, some e =>
      match mres subj s e opts.ct with
      | some first =>
        if enif_is_identical first a_err_enif_alloc_binary then
          .term (error a_err_enif_alloc_binary)
        else .term (enif_make_tuple2 a_match (enif_make_list1 first))
      | none => .undefined
    | _, _ => .undefined
  else
    let first_ix : Int := if opts.vs = .VS_ALL_BUT_FIRST then 2 else first_ix
    match match_loop subj ovec opts.ct first_ix last_ix .nil with
    | some list => .term (enif_make_tuple2 a_match list)
    | none => .undefined

/-- The function `match_impl`; `argv2` is present exactly when `argc == 3`. -/
def match_impl (eng : pcre2_engine) (env : nif_env) (argv0 argv1 : Term) (argv2 : Option Term) :
    nif_result × nif_env :=
  match enif_inspect_iolist_as_binary argv0 with
  | none => (.badarg, env)
  | some subj =>
    let parsed : Bool × matchoptions :=
      match argv2 with
      | some list => parse_match_options list matchoptions.init
      | none => (true, matchoptions.init)
    if parsed.1 = false then (.badarg, env)
    else
      let opts := parsed.2
      match enif_get_resource env argv1 with
      | none => (.badarg, env)
      | some handle =>
        match handle.re with
        | none => (.badarg, env)
        | some re =>
          let match_data := eng.pcre2_match_data_create_from_pattern re
          let scanned := eng.pcre2_match re subj opts.offset match_data
          let env1 : nif_env :=
            { env with calls := env.calls ++
                [engine_call.match_data_create re, engine_call.scan re subj opts.offset] }
          if 0 > scanned.1 then (.term a_nomatch, env1)
          else
            match scanned.2 with
            | none => (.undefined, env1)
            | some md => (match_result subj opts md, env1)


/-! ## Vocabulary of the statements -/

/-- The call passes the argument checks of `match_impl`: the first argument
is an iolist with bytes `subj`, the option list (if any) parses to `opts`, and
the second argument is a resource whose handle holds the live pattern `re`. -/
def reaches_scan (env : nif_env) (argv0 argv1 : Term) (argv2 : Option Term)
    (subj : List Nat) (opts : matchoptions) (re : pcre2_code) : Prop :=
  enif_inspect_iolist_as_binary argv0 = some subj ∧
  (match argv2 with
    | some list => parse_match_options list matchoptions.init
    | none => (true, matchoptions.init)) = (true, opts) ∧
  enif_get_resource env argv1 = some { re := some re }

/-- The materialisation of offset pair `k` of a flat offset vector:
`mres` applied to entries `2k` and `2k+1`. -/
def pair_value (subj : List Nat) (ovec : List Nat) (ct : capture_type) (k : Nat) : Option Term :=
  match ovec[2 * k]?, ovec[2 * k + 1]? with
  | some s, some e => mres subj s e ct
  | _, _ => none

/-- A match-data block holding `n` offset pairs, `1 ≤ n ≤ 2^30`, in a flat
vector of `2n` entries. -/
def ovector_ok (md : pcre2_match_data) : Prop :=
  1 ≤ md.ovector_count ∧ md.ovector_count ≤ 2 ^ 30 ∧
    md.ovector.length = 2 * md.ovector_count

/-- The term `{match, L}` for a list of values `L`. -/
def match_term (L : List Term) : Term := enif_make_tuple2 a_match (Term.ofList L)

/-- A match outcome: the bare indicator `match`, or `{match, L}` for a list
of values `L`. -/
def is_match_outcome (r : nif_result) : Prop :=
  r = .term a_match ∨ ∃ L : List Term, r = .term (match_term L)

/-- The elements of a list term: the heads of its cons cells, up to the first
tail that is not a cons cell. -/
def Term.cells : Term → List Term
  | .cons h t => h :: Term.cells t
  | _ => []

/-- A match option element that is refused: a term that is not a tuple, or
an `{offset, X}` whose `X` is not an integer in `0 .. 2^32 - 1`. -/
def rejected_match_option (H : Term) : Prop :=
  (∀ elems, H ≠ .tuple elems) ∨
    ∃ x, H = .tuple [a_offset, x] ∧ ∀ n : Int, 0 ≤ n → n < 4294967296 → x ≠ .int n

/-- A compile option element that is refused: a term that is neither a tuple
nor one of the four flag atoms, or a `{max_mem, X}` whose `X` is not an
integer in `-2^31 .. 2^31 - 1`. -/
def rejected_compile_option (H : Term) : Prop :=
  ((∀ elems, H ≠ .tuple elems) ∧ H ≠ a_caseless ∧ H ≠ a_extended ∧ H ≠ a_dotall ∧
      H ≠ a_multiline) ∨
    ∃ x, H = .tuple [a_max_mem, x] ∧
      ∀ n : Int, -2147483648 ≤ n → n < 2147483648 → x ≠ .int n

/-! ## Concrete engines and environments -/

/-- An engine whose scan always reports the whole match at `(0, 1)`, group 1
at `(0, 1)` and group 2 unset, with return code 2: what the pattern `(a)(b)?`
yields on the subject `"a"`. -/
def engine_a_opt_b : pcre2_engine :=
  { pcre2_compile := fun _ _ => .ok { id := 0 },
    pcre2_match_data_create_from_pattern := fun _ =>
      some { ovector_count := 3, ovector := [0, 0, 0, 0, 0, 0] },
    pcre2_match := fun _ _ _ md =>
      match md with
      | some m => (2, some { m with ovector := [0, 1, 0, 1, PCRE2_UNSET, PCRE2_UNSET] })
      | none => (-51, none) }

/-- An engine whose scan always reports the whole match at `(1, 3)` and no
groups, with return code 1: what the pattern `\d+` yields on `"x42y"`. -/
def engine_digits : pcre2_engine :=
  { pcre2_compile := fun _ _ => .ok { id := 0 },
    pcre2_match_data_create_from_pattern := fun _ =>
      some { ovector_count := 1, ovector := [0, 0] },
    pcre2_match := fun _ _ _ md =>
      match md with
      | some m => (1, some { m with ovector := [1, 3] })
      | none => (-51, none) }

/-- An engine whose scan never matches (return code `PCRE2_ERROR_NOMATCH`). -/
def engine_nomatch : pcre2_engine :=
  { pcre2_compile := fun _ _ => .ok { id := 0 },
    pcre2_match_data_create_from_pattern := fun _ =>
      some { ovector_count := 1, ovector := [0, 0] },
    pcre2_match := fun _ _ _ md => (-1, md) }

/-- An environment with one live handle, reachable as `Term.resource 0`. -/
def env_one_handle : nif_env :=
  { resources := [{ re := some { id := 0 } }], alloc_resource_ok := true, calls := [] }

/-- The option element `{capture, V, T}`. -/
def capture3 (v t : Term) : Term := .tuple [a_capture, v, t]

/-- The option element `{capture, V}`. -/
def capture2 (v : Term) : Term := .tuple [a_capture, v]

/-! ## Vocabulary of the statements: option state -/

/-- Whether the bare tag `tag` occurs among the elements `l`. -/
def has_tag (l : List Term) (tag : Term) : Bool := l.any (fun H => enif_is_identical H tag)

/-- The bitwise OR of the engine flags of the bare tags `caseless`, `extended`,
`dotall` and `multiline` that occur among the elements `l`. -/
def compile_mask (l : List Term) : Nat :=
  (if has_tag l a_caseless then PCRE2_CASELESS else 0) |||
    (if has_tag l a_extended then PCRE2_EXTENDED else 0) |||
    (if has_tag l a_dotall then PCRE2_DOTALL else 0) |||
    (if has_tag l a_multiline then PCRE2_MULTILINE else 0)

/-! ## Vocabulary of the statements: handle release -/

/-- One release of a handle: the explicit `cleanup_handle` of a compile
failure path, or the resource destructor `re_resource_cleanup`. -/
inductive cleanup_call where
  | explicit
  | destructor
  deriving Repr, DecidableEq

/-- One release applied to a handle and the engine-call log. -/
def run_cleanup (c : cleanup_call) (s : re_handle × List engine_call) :
    re_handle × List engine_call :=
  match c with
  | .explicit => cleanup_handle s.1 s.2
  | .destructor => re_resource_cleanup s.1 s.2

/-- A sequence of releases applied in order to a handle and the engine-call log. -/
def run_cleanups (seq : List cleanup_call) (handle : re_handle) (calls : List engine_call) :
    re_handle × List engine_call :=
  seq.foldl (fun s c => run_cleanup c s) (handle, calls)

/-- The calls to the engine's free operation that releasing `handle` owes:
one for a held pattern, none for a null pointer. -/
def frees_owed (handle : re_handle) : List engine_call :=
  match handle.re with
  | some code => [engine_call.code_free code]
  | none => []

/-! ## Vocabulary of the statements: match option elements -/

/-- An element that sets the start offset: `{offset, X}`. -/
def is_offset_element (H : Term) : Prop := ∃ x, H = .tuple [a_offset, x]

/-- An element that sets the value-spec: `{capture, V}` or `{capture, V, T}`. -/
def is_capture_element (H : Term) : Prop :=
  (∃ v, H = .tuple [a_capture, v]) ∨ ∃ v t, H = .tuple [a_capture, v, t]

/-- An element that sets the capture type: `{capture, V, T}`. -/
def is_typed_capture_element (H : Term) : Prop := ∃ v t, H = .tuple [a_capture, v, t]

/-! ## More concrete engines -/

/-- An engine that rejects every pattern with error code 114 (missing closing
parenthesis) at byte offset `2^32 + 1`: what a pattern of `2^32` letters
followed by `(` yields. -/
def engine_far_error : pcre2_engine :=
  { pcre2_compile := fun _ _ => .error (114, 4294967297),
    pcre2_match_data_create_from_pattern := fun _ =>
      some { ovector_count := 1, ovector := [0, 0] },
    pcre2_match := fun _ _ _ md => (-1, md) }

/-- An engine that cannot allocate a match-data block: the block is a null
pointer and the scan gives up with `PCRE2_ERROR_NULL` (-51). -/
def engine_no_memory : pcre2_engine :=
  { pcre2_compile := fun _ _ => .ok { id := 0 },
    pcre2_match_data_create_from_pattern := fun _ => none,
    pcre2_match := fun _ _ _ md =>
      match md with
      | some m => (1, some m)
      | none => (-51, none) }

/-- An environment with one live handle in which `enif_alloc_resource` fails. -/
def env_no_memory : nif_env :=
  { resources := [{ re := some { id := 0 } }], alloc_resource_ok := false, calls := [] }

/-! ## The reads of the offset vector -/

/-- The loop of `match_impl` once more, now also logging every index of the
offset vector it reads: `ovec[i]` and `ovec[i+1]` in each round. -/
def match_loop_reads (subj : List Nat) (ovec : List Nat) (ct : capture_type) (first_ix : Int)
    (i : Int) (list : Term) (reads : List Int) : Option Term × List Int :=
  if first_ix ≤ i then
    match ovec_read ovec i, ovec_read ovec (i + 1) with
    | some s, some e =>
      match mres subj s e ct with
      | some res =>
        match_loop_reads subj ovec ct first_ix (i - 2) (enif_make_list_cell res list)
          (reads ++ [i, i + 1])
      | none => (none, reads ++ [i, i + 1])
    | _, _ => (none, reads ++ [i, i + 1])
  else (some list, reads)
termination_by (i - first_ix + 1).toNat
decreasing_by omega

/-- The tail of `match_impl` once more (see `match_result`), now paired with
the indices of the offset vector it reads, in order. -/
def match_result_reads (subj : List Nat) (opts : matchoptions) (md : pcre2_match_data) :
    nif_result × List Int :=
  if opts.vs = .VS_NONE then (.term a_match, [])
  else if opts.vs = .VS_FIRST then
    (match ovec_read md.ovector 0, ovec_read md.ovector 1 with
      | some s, some e =>
        match mres subj s e opts.ct with
        | some first =>
          if enif_is_identical first a_err_enif_alloc_binary then
            .term (error a_err_enif_alloc_binary)
          else .term (enif_make_tuple2 a_match (enif_make_list1 first))
        | none => .undefined
      | _, _ => .undefined,
     [0, 1])
  else
    (match (match_loop_reads subj md.ovector opts.ct
        (if opts.vs = .VS_ALL_BUT_FIRST then 2 else 0)
        (last_ix_of md.ovector_count) .nil []).1 with
      | some list => .term (enif_make_tuple2 a_match list)
      | none => .undefined,
     (match_loop_reads subj md.ovector opts.ct
        (if opts.vs = .VS_ALL_BUT_FIRST then 2 else 0)
        (last_ix_of md.ovector_count) .nil []).2)

/-! ## Auxiliary lemmas -/

theorem enif_is_identical_atom (t : Term) (s : String) :
    enif_is_identical t (.atom s) = true ↔ t = .atom s := by
  cases t <;> simp [enif_is_identical]

theorem size_sub_of_le {s e : Nat} (hse : s ≤ e) (he : e < 2 ^ 64) : size_sub e s = e - s := by
  unfold size_sub
  omega

theorem size_sub_self (s : Nat) : size_sub s s = 0 := by
  unfold size_sub
  omega

theorem to_int_of_lt {x : Nat} (hx : x < 2 ^ 31) : to_int x = x := by
  unfold to_int
  have h1 : x % 2 ^ 32 = x := Nat.mod_eq_of_lt (by omega)
  rw [h1, if_pos hx]

theorem last_ix_of_eq {n : Nat} (h1 : 1 ≤ n) (h2 : n ≤ 2 ^ 30) :
    last_ix_of n = 2 * (n : Int) - 2 := by
  unfold last_ix_of to_int
  split <;> omega

theorem match_impl_of_reaches_scan (eng : pcre2_engine) {env : nif_env} {argv0 argv1 : Term}
    {argv2 : Option Term} {subj : List Nat} {opts : matchoptions} {re : pcre2_code}
    (h : reaches_scan env argv0 argv1 argv2 subj opts re) :
    (match_impl eng env argv0 argv1 argv2).1 =
      if 0 > (eng.pcre2_match re subj opts.offset
          (eng.pcre2_match_data_create_from_pattern re)).1 then .term a_nomatch
      else
        match (eng.pcre2_match re subj opts.offset
          (eng.pcre2_match_data_create_from_pattern re)).2 with
        | none => .undefined
        | some md => match_result subj opts md := by
  obtain ⟨h1, h2, h3⟩ := h
  unfold match_impl
  simp only [h1, h2, h3]
  simp only [Bool.true_eq_false, if_false]
  split
  · rfl
  · split <;> rfl

theorem foldr_cons_ofList (L : List Term) : List.foldr Term.cons Term.nil L = Term.ofList L := by
  induction L with
  | nil => rfl
  | cons x xs ih => simp [Term.ofList, ih]

theorem match_loop_spec (subj ovec : List Nat) (ct : capture_type) (f : Nat) (v : Nat → Term) :
    ∀ (d : Nat) (acc : Term) (i : Int), i = 2 * ((f : Int) + d) - 2 →
      (∀ k, f ≤ k → k < f + d → pair_value subj ovec ct k = some (v k)) →
      match_loop subj ovec ct (2 * (f : Int)) i acc =
        some (List.foldr Term.cons acc ((List.range' f d).map v)) := by
  intro d
  induction d with
  | zero =>
    intro acc i hi _
    rw [match_loop, if_neg (by omega)]
    rfl
  | succ d ih =>
    intro acc i hi hv
    have hk := hv (f + d) (by omega) (by omega)
    unfold pair_value at hk
    rw [match_loop, if_pos (by omega)]
    have e1 : ovec_read ovec i = ovec[2 * (f + d)]? := by
      unfold ovec_read
      rw [if_pos (by omega)]
      congr 1
      omega
    have e2 : ovec_read ovec (i + 1) = ovec[2 * (f + d) + 1]? := by
      unfold ovec_read
      rw [if_pos (by omega)]
      congr 1
      omega
    rw [e1, e2]
    cases hs : ovec[2 * (f + d)]? with
    | none => simp [hs] at hk
    | some s =>
      cases he : ovec[2 * (f + d) + 1]? with
      | none => simp [hs, he] at hk
      | some e =>
        simp only [hs, he] at hk
        simp only [hk]
        rw [ih (enif_make_list_cell (v (f + d)) acc) (i - 2) (by omega)
          (fun k h1 h2 => hv k h1 (by omega))]
        rw [List.range'_concat, List.map_append, List.foldr_append]
        simp [enif_make_list_cell]

theorem mres_ne_atom {subj : List Nat} {s e : Nat} {ct : capture_type} {t : Term}
    (h : mres subj s e ct = some t) (a : Term) (ha : enif_is_atom a = true) :
    enif_is_identical t a = false := by
  cases a <;> simp [enif_is_atom] at ha
  unfold mres at h
  cases ct
  · simp only at h
    split at h <;> (cases h; simp [enif_make_tuple2, enif_is_identical])
  · simp only at h
    split at h <;> (cases h; simp [enif_make_tuple2, enif_is_identical])
  · simp only at h
    split at h
    · cases h; simp [enif_is_identical]
    · cases h

theorem pair_value_getD {subj ovec : List Nat} {ct : capture_type} {n : Nat}
    (hval : ∀ k, k < n → (pair_value subj ovec ct k).isSome) :
    ∀ k, k < n → pair_value subj ovec ct k =
      some ((fun j => (pair_value subj ovec ct j).getD Term.nil) k) := by
  intro k hk
  have := hval k hk
  cases h : pair_value subj ovec ct k with
  | none => simp [h] at this
  | some v => simp [h]

theorem match_result_loop (subj : List Nat) (opts : matchoptions) (md : pcre2_match_data)
    (hmd : ovector_ok md) (h1 : opts.vs ≠ .VS_NONE) (h2 : opts.vs ≠ .VS_FIRST)
    (f : Nat) (hf : f = if opts.vs = .VS_ALL_BUT_FIRST then 1 else 0)
    (hval : ∀ k, k < md.ovector_count → (pair_value subj md.ovector opts.ct k).isSome) :
    match_result subj opts md =
      .term (match_term ((List.range' f (md.ovector_count - f)).map
        (fun j => (pair_value subj md.ovector opts.ct j).getD Term.nil))) := by
  obtain ⟨hn1, hn2, _⟩ := hmd
  have hf1 : f ≤ 1 := by rw [hf]; split <;> omega
  unfold match_result
  simp only [if_neg h1, if_neg h2]
  have hfi : (if opts.vs = .VS_ALL_BUT_FIRST then (2 : Int) else 0) = 2 * (f : Int) := by
    rw [hf]; split <;> simp
  rw [hfi]
  rw [match_loop_spec subj md.ovector opts.ct f
    (fun j => (pair_value subj md.ovector opts.ct j).getD Term.nil) (md.ovector_count - f)
    Term.nil (last_ix_of md.ovector_count)
    (by rw [last_ix_of_eq hn1 hn2]; omega)
    (fun k _ hk => pair_value_getD hval k (by omega))]
  simp only [foldr_cons_ofList]
  rfl

theorem match_result_first (subj : List Nat) (opts : matchoptions) (md : pcre2_match_data)
    (h : opts.vs = .VS_FIRST) (v : Term) (hv : pair_value subj md.ovector opts.ct 0 = some v) :
    match_result subj opts md = .term (match_term [v]) := by
  unfold match_result
  have h1 : opts.vs ≠ .VS_NONE := by rw [h]; decide
  simp only [if_neg h1, if_pos h]
  unfold pair_value at hv
  have r0 : ovec_read md.ovector 0 = md.ovector[0]? := by simp [ovec_read]
  have r1 : ovec_read md.ovector 1 = md.ovector[1]? := by simp [ovec_read]
  rw [r0, r1]
  cases hs : md.ovector[0]? with
  | none => simp [hs] at hv
  | some s =>
    cases he : md.ovector[1]? with
    | none => simp [hs, he] at hv
    | some e =>
      simp only [hs, he] at hv
      simp only [hv]
      rw [mres_ne_atom hv a_err_enif_alloc_binary rfl]
      rfl

/-! ## Value-spec ALL: every group, ascending -/

/-- C1: after a successful scan whose block holds `n ≥ 1` offset pairs, a
match with value-spec ALL returns `{match, L}` where `L` has exactly `n`
values and the `k`-th value is the materialisation of pair `k` in the selected
capture type, group 0 first. -/
theorem C1_all_lists_every_group (eng : pcre2_engine) (env : nif_env) (argv0 argv1 : Term)
    (argv2 : Option Term) (subj : List Nat) (opts : matchoptions) (re : pcre2_code)
    (rc : Int) (md : pcre2_match_data)
    (hreach : reaches_scan env argv0 argv1 argv2 subj opts re)
    (hscan : eng.pcre2_match re subj opts.offset
      (eng.pcre2_match_data_create_from_pattern re) = (rc, some md))
    (hrc : 0 ≤ rc) (hvs : opts.vs = .VS_ALL) (hmd : ovector_ok md)
    (hval : ∀ k, k < md.ovector_count → (pair_value subj md.ovector opts.ct k).isSome) :
    ∃ L : List Term,
      (match_impl eng env argv0 argv1 argv2).1 = .term (match_term L) ∧
      L.length = md.ovector_count ∧
      ∀ k, k < md.ovector_count → L[k]? = pair_value subj md.ovector opts.ct k := by
  refine ⟨(List.range' 0 (md.ovector_count - 0)).map
    (fun j => (pair_value subj md.ovector opts.ct j).getD Term.nil), ?_, ?_, ?_⟩
  · rw [match_impl_of_reaches_scan eng hreach, hscan]
    simp only [if_neg (not_lt.mpr hrc)]
    exact match_result_loop subj opts md hmd (by rw [hvs]; decide) (by rw [hvs]; decide) 0
      (by rw [hvs]; rfl) hval
  · simp
  · intro k hk
    rw [pair_value_getD hval k hk]
    simp [List.getElem?_map, List.getElem?_range', hk]

/-- Witness for C1: the `(a)(b)?` scan under `[{capture, all, index}]`. -/
theorem C1_all_lists_every_group_witness :
    ∃ L : List Term,
      (match_impl engine_a_opt_b env_one_handle (.binary [97]) (.resource 0)
        (some (Term.ofList [capture3 a_all a_index]))).1 = .term (match_term L) ∧
      L.length = 3 ∧
      ∀ k, k < 3 → L[k]? =
        pair_value [97] [0, 1, 0, 1, PCRE2_UNSET, PCRE2_UNSET] .CT_INDEX k :=
  C1_all_lists_every_group engine_a_opt_b env_one_handle (.binary [97]) (.resource 0)
    (some (Term.ofList [capture3 a_all a_index])) [97]
    { matchoptions.init with vs := .VS_ALL, ct := .CT_INDEX } { id := 0 } 2
    { ovector_count := 3, ovector := [0, 1, 0, 1, PCRE2_UNSET, PCRE2_UNSET] }
    ⟨rfl, rfl, rfl⟩ rfl (by decide) rfl ⟨by decide, by decide, rfl⟩
    (by
      intro k hk
      have : k = 0 ∨ k = 1 ∨ k = 2 := by
        change k < 3 at hk
        omega
      rcases this with h | h | h <;> subst h <;> rfl)

/-! ## Per-value shaping -/

theorem to_int_size_sub {s e : Nat}
    (h1 : -2 ^ 31 ≤ (e : Int) - s) (h2 : (e : Int) - s < 2 ^ 31) :
    to_int (size_sub e s) = (e : Int) - s := by
  unfold to_int size_sub
  split <;> omega

/-- C2 (as stated, refuted): for the set pair `(2^31, 2^31 + 1)` capture
type INDEX does not yield `(2^31, 1)`; the start is reported as `-2^31`. -/
theorem C2_index_counterexample :
    mres (List.replicate 2147483649 0) 2147483648 2147483649 .CT_INDEX =
        some (.tuple [.int (-2147483648), .int 1]) ∧
      mres (List.replicate 2147483649 0) 2147483648 2147483649 .CT_INDEX ≠
        some (.tuple [.int 2147483648, .int 1]) := by
  have h : mres (List.replicate 2147483649 0) 2147483648 2147483649 .CT_INDEX =
      some (.tuple [.int (-2147483648), .int 1]) := by rfl
  refine ⟨h, ?_⟩
  rw [h]
  simp

/-- C2 (amended): capture type INDEX materialises a pair whose start is the
unset sentinel as `(-1, 0)`; any other pair as `(start, end - start)` with both
components passed through a 32-bit `int`, which is exactly `(start, end - start)`
whenever `start < 2^31` and `-2^31 ≤ end - start < 2^31`.  With default options
the pair `(1, 3)` on the subject `"x42y"` yields `{match, [{1, 2}]}`. -/
theorem C2_index_value (subj : List Nat) (s e : Nat) :
    (s = PCRE2_UNSET →
      mres subj s e .CT_INDEX = some (.tuple [.int (-1), .int 0])) ∧
    (s ≠ PCRE2_UNSET →
      mres subj s e .CT_INDEX =
        some (.tuple [.int (to_int s), .int (to_int (size_sub e s))])) ∧
    (s < 2 ^ 31 → -2 ^ 31 ≤ (e : Int) - s → (e : Int) - s < 2 ^ 31 →
      mres subj s e .CT_INDEX = some (.tuple [.int s, .int ((e : Int) - s)])) ∧
    (∀ (eng : pcre2_engine) (env : nif_env) (argv1 : Term) (re : pcre2_code) (rc : Int),
      enif_get_resource env argv1 = some { re := some re } →
      eng.pcre2_match re [120, 52, 50, 121] 0 (eng.pcre2_match_data_create_from_pattern re) =
        (rc, some { ovector_count := 1, ovector := [1, 3] }) →
      0 ≤ rc →
      (match_impl eng env (.binary [120, 52, 50, 121]) argv1 none).1 =
        .term (match_term [.tuple [.int 1, .int 2]])) := by
  refine ⟨?_, ?_, ?_, ?_⟩
  · intro h
    simp [mres, h, enif_make_tuple2, enif_make_int]
  · intro h
    simp [mres, h, enif_make_tuple2, enif_make_int]
  · intro h1 h2 h3
    have hne : s ≠ PCRE2_UNSET := by
      unfold PCRE2_UNSET
      omega
    simp only [mres, if_neg hne, enif_make_tuple2, enif_make_int]
    rw [to_int_of_lt h1, to_int_size_sub h2 h3]
  · intro eng env argv1 re rc hres hscan hrc
    have hreach : reaches_scan env (.binary [120, 52, 50, 121]) argv1 none
        [120, 52, 50, 121] matchoptions.init re := ⟨rfl, rfl, hres⟩
    rw [match_impl_of_reaches_scan eng hreach]
    have hscan2 : eng.pcre2_match re [120, 52, 50, 121] matchoptions.init.offset
        (eng.pcre2_match_data_create_from_pattern re) =
        (rc, some { ovector_count := 1, ovector := [1, 3] }) := hscan
    rw [hscan2]
    simp only [if_neg (not_lt.mpr hrc)]
    rw [match_result_loop [120, 52, 50, 121] matchoptions.init
      { ovector_count := 1, ovector := [1, 3] } ⟨by decide, by decide, rfl⟩
      (by decide) (by decide) 0 rfl
      (by
        intro k hk
        have : k = 0 := by
          change k < 1 at hk
          omega
        subst this
        rfl)]
    rfl

/-- Witness for C2 (amended): the unset pair, the pair `(1, 3)`, and the
`\d+` scan on `"x42y"` with default options. -/
theorem C2_index_value_witness :
    mres [120, 52, 50, 121] PCRE2_UNSET PCRE2_UNSET .CT_INDEX =
        some (.tuple [.int (-1), .int 0]) ∧
      mres [120, 52, 50, 121] 1 3 .CT_INDEX = some (.tuple [.int 1, .int 2]) ∧
      (match_impl engine_digits env_one_handle (.binary [120, 52, 50, 121])
        (.resource 0) none).1 = .term (match_term [.tuple [.int 1, .int 2]]) :=
  ⟨(C2_index_value [120, 52, 50, 121] PCRE2_UNSET PCRE2_UNSET).1 rfl,
   (C2_index_value [120, 52, 50, 121] 1 3).2.2.1
     (by decide) (by decide) (by decide),
   (C2_index_value [120, 52, 50, 121] 1 3).2.2.2
     engine_digits env_one_handle (.resource 0) { id := 0 } 1 rfl rfl (by decide)⟩

/-- C3: for `start ≤ end ≤ length(subject)` capture type BINARY materialises
the pair as the bytes `subject[start : end]`, exactly `end - start` of them;
for the unset pair it is the empty byte sequence and not an error. -/
theorem C3_binary_value (subj : List Nat) (s e : Nat) (hse : s ≤ e) (hel : e ≤ subj.length)
    (hlen : subj.length < 2 ^ 64) :
    mres subj s e .CT_BINARY = some (.binary ((subj.drop s).take (e - s))) ∧
      ((subj.drop s).take (e - s)).length = e - s ∧
      mres subj PCRE2_UNSET PCRE2_UNSET .CT_BINARY = some (.binary []) := by
  refine ⟨?_, ?_, ?_⟩
  · unfold mres
    simp only [size_sub_of_le hse (by omega : e < 2 ^ 64)]
    unfold memcpy_from
    by_cases h0 : e - s = 0
    · simp [h0]
    · rw [if_neg h0, if_pos (by omega)]
  · simp
    omega
  · unfold mres
    simp [size_sub_self, memcpy_from]

/-- Witness for C3: bytes 1..3 of `"x42y"` are `"42"`. -/
theorem C3_binary_value_witness :
    mres [120, 52, 50, 121] 1 3 .CT_BINARY = some (.binary [52, 50]) ∧
      ([52, 50] : List Nat).length = 3 - 1 ∧
      mres [120, 52, 50, 121] PCRE2_UNSET PCRE2_UNSET .CT_BINARY = some (.binary []) :=
  C3_binary_value [120, 52, 50, 121] 1 3 (by decide) (by decide) (by decide)

/-! ## Value-specs ALL_BUT_FIRST and FIRST against ALL -/

theorem match_impl_loop (eng : pcre2_engine) {env : nif_env} {argv0 argv1 : Term}
    {argv2 : Option Term} {subj : List Nat} {opts : matchoptions} {re : pcre2_code}
    {rc : Int} {md : pcre2_match_data}
    (hreach : reaches_scan env argv0 argv1 argv2 subj opts re)
    (hscan : eng.pcre2_match re subj opts.offset
      (eng.pcre2_match_data_create_from_pattern re) = (rc, some md))
    (hrc : 0 ≤ rc) (hmd : ovector_ok md)
    (h1 : opts.vs ≠ .VS_NONE) (h2 : opts.vs ≠ .VS_FIRST)
    (f : Nat) (hf : f = if opts.vs = .VS_ALL_BUT_FIRST then 1 else 0)
    (hval : ∀ k, k < md.ovector_count → (pair_value subj md.ovector opts.ct k).isSome) :
    (match_impl eng env argv0 argv1 argv2).1 =
      .term (match_term ((List.range' f (md.ovector_count - f)).map
        (fun j => (pair_value subj md.ovector opts.ct j).getD Term.nil))) := by
  rw [match_impl_of_reaches_scan eng hreach, hscan]
  simp only [if_neg (not_lt.mpr hrc)]
  exact match_result_loop subj opts md hmd h1 h2 f hf hval

theorem match_impl_first (eng : pcre2_engine) {env : nif_env} {argv0 argv1 : Term}
    {argv2 : Option Term} {subj : List Nat} {opts : matchoptions} {re : pcre2_code}
    {rc : Int} {md : pcre2_match_data}
    (hreach : reaches_scan env argv0 argv1 argv2 subj opts re)
    (hscan : eng.pcre2_match re subj opts.offset
      (eng.pcre2_match_data_create_from_pattern re) = (rc, some md))
    (hrc : 0 ≤ rc) (h : opts.vs = .VS_FIRST) (v : Term)
    (hv : pair_value subj md.ovector opts.ct 0 = some v) :
    (match_impl eng env argv0 argv1 argv2).1 = .term (match_term [v]) := by
  rw [match_impl_of_reaches_scan eng hreach, hscan]
  simp only [if_neg (not_lt.mpr hrc)]
  exact match_result_first subj opts md h v hv

/-- C4: for every capture type, on the same scan the list returned for
value-spec ALL_BUT_FIRST is the list returned for ALL without its first
element (group 0), hence one shorter; with a single offset pair (a pattern
without capture groups) it is `{match, []}`. -/
theorem C4_all_but_first_is_tail (eng : pcre2_engine) (env : nif_env) (argv0 argv1 : Term)
    (o_all o_abf : Option Term) (subj : List Nat) (opts_all opts_abf : matchoptions)
    (re : pcre2_code) (rc : Int) (md : pcre2_match_data)
    (hreach_all : reaches_scan env argv0 argv1 o_all subj opts_all re)
    (hreach_abf : reaches_scan env argv0 argv1 o_abf subj opts_abf re)
    (hvs_all : opts_all.vs = .VS_ALL) (hvs_abf : opts_abf.vs = .VS_ALL_BUT_FIRST)
    (hct : opts_abf.ct = opts_all.ct) (hoff : opts_abf.offset = opts_all.offset)
    (hscan : eng.pcre2_match re subj opts_all.offset
      (eng.pcre2_match_data_create_from_pattern re) = (rc, some md))
    (hrc : 0 ≤ rc) (hmd : ovector_ok md)
    (hval : ∀ k, k < md.ovector_count → (pair_value subj md.ovector opts_all.ct k).isSome) :
    ∃ L : List Term,
      (match_impl eng env argv0 argv1 o_all).1 = .term (match_term L) ∧
      (match_impl eng env argv0 argv1 o_abf).1 = .term (match_term L.tail) ∧
      L.tail.length + 1 = L.length ∧
      (md.ovector_count = 1 →
        (match_impl eng env argv0 argv1 o_abf).1 = .term (match_term [])) := by
  have hall := match_impl_loop eng hreach_all hscan hrc hmd (by rw [hvs_all]; decide)
    (by rw [hvs_all]; decide) 0 (by rw [hvs_all]; rfl) hval
  have habf := match_impl_loop eng hreach_abf (by rw [hoff]; exact hscan) hrc hmd
    (by rw [hvs_abf]; decide) (by rw [hvs_abf]; decide) 1 (by rw [hvs_abf]; rfl)
    (by rw [hct]; exact hval)
  rw [hct] at habf
  obtain ⟨m, hm⟩ : ∃ m, md.ovector_count = m + 1 := ⟨md.ovector_count - 1, by
    have := hmd.1
    omega⟩
  have htail : ((List.range' 0 (md.ovector_count - 0)).map
      (fun j => (pair_value subj md.ovector opts_all.ct j).getD Term.nil)).tail =
      (List.range' 1 (md.ovector_count - 1)).map
      (fun j => (pair_value subj md.ovector opts_all.ct j).getD Term.nil) := by
    rw [hm]
    simp [List.range'_succ]
  refine ⟨_, hall, ?_, ?_, ?_⟩
  · rw [htail]
    exact habf
  · rw [htail]
    simp
    have := hmd.1
    omega
  · intro h1
    rw [habf, h1]
    rfl

/-- Witness for C4: the `(a)(b)?` scan under `{capture, all, binary}` and
`{capture, all_but_first, binary}`. -/
theorem C4_all_but_first_is_tail_witness :
    ∃ L : List Term,
      (match_impl engine_a_opt_b env_one_handle (.binary [97]) (.resource 0)
        (some (Term.ofList [capture3 a_all a_binary]))).1 = .term (match_term L) ∧
      (match_impl engine_a_opt_b env_one_handle (.binary [97]) (.resource 0)
        (some (Term.ofList [capture3 a_all_but_first a_binary]))).1 =
          .term (match_term L.tail) ∧
      L.tail.length + 1 = L.length ∧
      ((3 : Nat) = 1 →
        (match_impl engine_a_opt_b env_one_handle (.binary [97]) (.resource 0)
          (some (Term.ofList [capture3 a_all_but_first a_binary]))).1 =
            .term (match_term [])) :=
  C4_all_but_first_is_tail engine_a_opt_b env_one_handle (.binary [97]) (.resource 0)
    (some (Term.ofList [capture3 a_all a_binary]))
    (some (Term.ofList [capture3 a_all_but_first a_binary])) [97]
    { matchoptions.init with vs := .VS_ALL, ct := .CT_BINARY }
    { matchoptions.init with vs := .VS_ALL_BUT_FIRST, ct := .CT_BINARY }
    { id := 0 } 2
    { ovector_count := 3, ovector := [0, 1, 0, 1, PCRE2_UNSET, PCRE2_UNSET] }
    ⟨rfl, rfl, rfl⟩ ⟨rfl, rfl, rfl⟩ rfl rfl rfl rfl rfl (by decide)
    ⟨by decide, by decide, rfl⟩
    (by
      intro k hk
      have : k = 0 ∨ k = 1 ∨ k = 2 := by
        change k < 3 at hk
        omega
      rcases this with h | h | h <;> subst h <;> rfl)

/-- C5: for every capture type, value-spec FIRST returns `{match, [V]}` with
exactly one value `V`, the materialisation of offset entries 0 and 1; `V` is
the first element of the list that value-spec ALL returns on the same scan. -/
theorem C5_first_is_whole_match (eng : pcre2_engine) (env : nif_env) (argv0 argv1 : Term)
    (o_first o_all : Option Term) (subj : List Nat) (opts_first opts_all : matchoptions)
    (re : pcre2_code) (rc : Int) (md : pcre2_match_data)
    (hreach_first : reaches_scan env argv0 argv1 o_first subj opts_first re)
    (hreach_all : reaches_scan env argv0 argv1 o_all subj opts_all re)
    (hvs_first : opts_first.vs = .VS_FIRST) (hvs_all : opts_all.vs = .VS_ALL)
    (hct : opts_all.ct = opts_first.ct) (hoff : opts_all.offset = opts_first.offset)
    (hscan : eng.pcre2_match re subj opts_first.offset
      (eng.pcre2_match_data_create_from_pattern re) = (rc, some md))
    (hrc : 0 ≤ rc) (hmd : ovector_ok md)
    (hval : ∀ k, k < md.ovector_count →
      (pair_value subj md.ovector opts_first.ct k).isSome) :
    ∃ v : Term,
      (match_impl eng env argv0 argv1 o_first).1 = .term (match_term [v]) ∧
      (∃ s e, md.ovector[0]? = some s ∧ md.ovector[1]? = some e ∧
        mres subj s e opts_first.ct = some v) ∧
      ∃ L : List Term,
        (match_impl eng env argv0 argv1 o_all).1 = .term (match_term L) ∧
        L.head? = some v := by
  have hall := match_impl_loop eng hreach_all (by rw [hoff]; exact hscan) hrc hmd
    (by rw [hvs_all]; decide) (by rw [hvs_all]; decide) 0 (by rw [hvs_all]; rfl)
    (by rw [hct]; exact hval)
  rw [hct] at hall
  obtain ⟨m, hm⟩ : ∃ m, md.ovector_count = m + 1 := ⟨md.ovector_count - 1, by
    have := hmd.1
    omega⟩
  have hsome := hval 0 hmd.1
  cases hpv : pair_value subj md.ovector opts_first.ct 0 with
  | none => simp [hpv] at hsome
  | some v =>
    have hfirst := match_impl_first eng hreach_first hscan hrc hvs_first v hpv
    refine ⟨v, hfirst, ?_, _, hall, ?_⟩
    · unfold pair_value at hpv
      cases hs : md.ovector[0]? with
      | none => simp [hs] at hpv
      | some s =>
        cases he : md.ovector[1]? with
        | none => simp [hs, he] at hpv
        | some e =>
          simp only [hs, he] at hpv
          exact ⟨s, e, rfl, rfl, hpv⟩
    · rw [hm]
      simp [List.range'_succ, hpv]

/-- Witness for C5: the `(a)(b)?` scan under `{capture, first, binary}` and
`{capture, all, binary}`. -/
theorem C5_first_is_whole_match_witness :
    ∃ v : Term,
      (match_impl engine_a_opt_b env_one_handle (.binary [97]) (.resource 0)
        (some (Term.ofList [capture3 a_first a_binary]))).1 = .term (match_term [v]) ∧
      (∃ s e, [0, 1, 0, 1, PCRE2_UNSET, PCRE2_UNSET][0]? = some s ∧
        [0, 1, 0, 1, PCRE2_UNSET, PCRE2_UNSET][1]? = some e ∧
        mres [97] s e .CT_BINARY = some v) ∧
      ∃ L : List Term,
        (match_impl engine_a_opt_b env_one_handle (.binary [97]) (.resource 0)
          (some (Term.ofList [capture3 a_all a_binary]))).1 = .term (match_term L) ∧
        L.head? = some v :=
  C5_first_is_whole_match engine_a_opt_b env_one_handle (.binary [97]) (.resource 0)
    (some (Term.ofList [capture3 a_first a_binary]))
    (some (Term.ofList [capture3 a_all a_binary])) [97]
    { matchoptions.init with vs := .VS_FIRST, ct := .CT_BINARY }
    { matchoptions.init with vs := .VS_ALL, ct := .CT_BINARY }
    { id := 0 } 2
    { ovector_count := 3, ovector := [0, 1, 0, 1, PCRE2_UNSET, PCRE2_UNSET] }
    ⟨rfl, rfl, rfl⟩ ⟨rfl, rfl, rfl⟩ rfl rfl rfl rfl rfl (by decide)
    ⟨by decide, by decide, rfl⟩
    (by
      intro k hk
      have : k = 0 ∨ k = 1 ∨ k = 2 := by
        change k < 3 at hk
        omega
      rcases this with h | h | h <;> subst h <;> rfl)

/-! ## The `(a)(b)?` scenario -/

theorem match_impl_a_opt_b (eng : pcre2_engine) (env : nif_env) (argv1 : Term)
    (re : pcre2_code) (rc : Int)
    (hres : enif_get_resource env argv1 = some { re := some re })
    (hscan : eng.pcre2_match re [97] 0 (eng.pcre2_match_data_create_from_pattern re) =
      (rc, some { ovector_count := 3, ovector := [0, 1, 0, 1, PCRE2_UNSET, PCRE2_UNSET] }))
    (hrc : 0 ≤ rc) :
    (match_impl eng env (.binary [97]) argv1
        (some (Term.ofList [capture3 a_all a_index]))).1 =
      .term (match_term
        [.tuple [.int 0, .int 1], .tuple [.int 0, .int 1], .tuple [.int (-1), .int 0]]) := by
  have hreach : reaches_scan env (.binary [97]) argv1
      (some (Term.ofList [capture3 a_all a_index])) [97]
      { matchoptions.init with vs := .VS_ALL, ct := .CT_INDEX } re := ⟨rfl, rfl, hres⟩
  rw [match_impl_loop eng hreach hscan hrc ⟨by decide, by decide, rfl⟩ (by decide) (by decide)
    0 rfl
    (by
      intro k hk
      have : k = 0 ∨ k = 1 ∨ k = 2 := by
        change k < 3 at hk
        omega
      rcases this with h | h | h <;> subst h <;> rfl)]
  rfl

/-- C9 (as stated, refuted): on the `(a)(b)?` scan of `"a"` with options
`[{capture, all, index}]` the outcome is not `{match, [{0,1}, {-1,0}]}`. -/
theorem C9_scenario_counterexample :
    (match_impl engine_a_opt_b env_one_handle (.binary [97]) (.resource 0)
        (some (Term.ofList [capture3 a_all a_index]))).1 ≠
      .term (match_term [.tuple [.int 0, .int 1], .tuple [.int (-1), .int 0]]) := by
  rw [match_impl_a_opt_b engine_a_opt_b env_one_handle (.resource 0) { id := 0 } 2 rfl rfl
    (by decide)]
  simp [match_term, enif_make_tuple2, Term.ofList]

/-- C9 (amended): when the engine reports the whole match at `(0, 1)`, group 1
at `(0, 1)` and group 2 unset for the subject `"a"`, a match with options
`[{capture, all, index}]` returns `{match, [{0,1}, {0,1}, {-1,0}]}`: the whole
match, then group 1, then the unset group 2. -/
theorem C9_scenario_all_index (eng : pcre2_engine) (env : nif_env) (argv1 : Term)
    (re : pcre2_code) (rc : Int)
    (hres : enif_get_resource env argv1 = some { re := some re })
    (hscan : eng.pcre2_match re [97] 0 (eng.pcre2_match_data_create_from_pattern re) =
      (rc, some { ovector_count := 3, ovector := [0, 1, 0, 1, PCRE2_UNSET, PCRE2_UNSET] }))
    (hrc : 0 ≤ rc) :
    (match_impl eng env (.binary [97]) argv1
        (some (Term.ofList [capture3 a_all a_index]))).1 =
      .term (match_term
        [.tuple [.int 0, .int 1], .tuple [.int 0, .int 1], .tuple [.int (-1), .int 0]]) :=
  match_impl_a_opt_b eng env argv1 re rc hres hscan hrc

/-- Witness for C9 (amended): the concrete `(a)(b)?` engine and one live handle. -/
theorem C9_scenario_all_index_witness :
    (match_impl engine_a_opt_b env_one_handle (.binary [97]) (.resource 0)
        (some (Term.ofList [capture3 a_all a_index]))).1 =
      .term (match_term
        [.tuple [.int 0, .int 1], .tuple [.int 0, .int 1], .tuple [.int (-1), .int 0]]) :=
  C9_scenario_all_index engine_a_opt_b env_one_handle (.resource 0) { id := 0 } 2 rfl rfl
    (by decide)

/-! ## No-match normalisation -/

theorem match_result_ne_nomatch (subj : List Nat) (opts : matchoptions)
    (md : pcre2_match_data) : match_result subj opts md ≠ .term a_nomatch := by
  unfold match_result
  simp only
  split
  · simp [a_match, a_nomatch, enif_make_atom]
  · split
    · split
      · split
        · split
          · simp [error, enif_make_tuple2, a_nomatch, enif_make_atom]
          · simp [enif_make_tuple2, a_nomatch, enif_make_atom]
        · simp
      · simp
    · split
      · simp [enif_make_tuple2, a_nomatch, enif_make_atom]
      · simp

theorem match_result_is_outcome (subj : List Nat) (opts : matchoptions)
    (md : pcre2_match_data) (hmd : ovector_ok md)
    (hval : ∀ k, k < md.ovector_count → (pair_value subj md.ovector opts.ct k).isSome) :
    is_match_outcome (match_result subj opts md) := by
  by_cases h1 : opts.vs = .VS_NONE
  · left
    unfold match_result
    simp only [if_pos h1]
  · right
    by_cases h2 : opts.vs = .VS_FIRST
    · have hsome := hval 0 hmd.1
      cases hpv : pair_value subj md.ovector opts.ct 0 with
      | none => simp [hpv] at hsome
      | some v => exact ⟨[v], match_result_first subj opts md h2 v hpv⟩
    · exact ⟨_, match_result_loop subj opts md hmd h1 h2 _ rfl hval⟩

/-- C10: for a live handle, an iolist subject and successfully parsed
options, match returns `nomatch` if and only if the scan's return code is
negative; on every non-negative code (0 included) the result is the one built
from the offset vector, which is a match outcome whenever the block is
well-formed and its pairs can be materialised. -/
theorem C10_nomatch_iff_negative (eng : pcre2_engine) (env : nif_env) (argv0 argv1 : Term)
    (argv2 : Option Term) (subj : List Nat) (opts : matchoptions) (re : pcre2_code)
    (rc : Int) (omd : Option pcre2_match_data)
    (hreach : reaches_scan env argv0 argv1 argv2 subj opts re)
    (hscan : eng.pcre2_match re subj opts.offset
      (eng.pcre2_match_data_create_from_pattern re) = (rc, omd)) :
    ((match_impl eng env argv0 argv1 argv2).1 = .term a_nomatch ↔ rc < 0) ∧
    (0 ≤ rc → ∀ md, omd = some md →
      (match_impl eng env argv0 argv1 argv2).1 = match_result subj opts md ∧
      (ovector_ok md →
        (∀ k, k < md.ovector_count → (pair_value subj md.ovector opts.ct k).isSome) →
        is_match_outcome (match_impl eng env argv0 argv1 argv2).1)) := by
  rw [match_impl_of_reaches_scan eng hreach, hscan]
  simp only
  constructor
  · constructor
    · intro h
      by_contra hn
      rw [if_neg (by simpa using hn)] at h
      cases omd with
      | none => simp at h
      | some md => exact match_result_ne_nomatch subj opts md h
    · intro h
      rw [if_pos (by simpa using h)]
  · intro hrc md hmd
    subst hmd
    rw [if_neg (not_lt.mpr hrc)]
    exact ⟨rfl, fun h1 h2 => match_result_is_outcome subj opts md h1 h2⟩

/-- Witness for C10: a scan that never matches gives `nomatch`, and the
`\d+` scan with return code 1 gives a match outcome. -/
theorem C10_nomatch_iff_negative_witness :
    ((match_impl engine_nomatch env_one_handle (.binary [120]) (.resource 0) none).1 =
        .term a_nomatch ↔ (-1 : Int) < 0) ∧
    is_match_outcome
      (match_impl engine_digits env_one_handle (.binary [120, 52, 50, 121])
        (.resource 0) none).1 :=
  ⟨(C10_nomatch_iff_negative engine_nomatch env_one_handle (.binary [120]) (.resource 0) none
      [120] matchoptions.init { id := 0 } (-1) (some { ovector_count := 1, ovector := [0, 0] })
      ⟨rfl, rfl, rfl⟩ rfl).1,
   ((C10_nomatch_iff_negative engine_digits env_one_handle (.binary [120, 52, 50, 121])
      (.resource 0) none [120, 52, 50, 121] matchoptions.init { id := 0 } 1
      (some { ovector_count := 1, ovector := [1, 3] }) ⟨rfl, rfl, rfl⟩ rfl).2 (by decide)
      { ovector_count := 1, ovector := [1, 3] } rfl).2 ⟨by decide, by decide, rfl⟩
      (by
        intro k hk
        have : k = 0 := by
          change k < 1 at hk
          omega
        subst this
        rfl)⟩

/-! ## Match option lists -/

theorem enif_get_uint_eq_none (x : Term) :
    enif_get_uint x = none ↔ ∀ n : Int, 0 ≤ n → n < 4294967296 → x ≠ .int n := by
  cases x <;> simp [enif_get_uint]
  rename_i m
  constructor
  · intro h n h0 h1 hmn
    subst hmn
    exact absurd h1 (not_lt.mpr (h h0))
  · intro h h0
    by_contra hlt
    exact h m h0 (lt_of_not_le hlt) rfl

theorem enif_get_int_eq_none (x : Term) :
    enif_get_int x = none ↔ ∀ n : Int, -2147483648 ≤ n → n < 2147483648 → x ≠ .int n := by
  cases x <;> simp [enif_get_int]
  rename_i m
  constructor
  · intro h n h0 h1 hmn
    subst hmn
    exact absurd h1 (not_lt.mpr (h h0))
  · intro h h0
    by_contra hlt
    exact h m h0 (lt_of_not_le hlt) rfl

theorem rejected_match_option_iff (H : Term) :
    rejected_match_option H ↔
      match enif_get_tuple H with
      | none => True
      | some tuple => tuple.length = 2 ∧
          enif_is_identical (tuple.getD 0 .nil) a_offset = true ∧
          enif_get_uint (tuple.getD 1 .nil) = none := by
  unfold rejected_match_option
  cases H with
  | tuple elems =>
    simp only [enif_get_tuple]
    constructor
    · rintro (h | ⟨x, hx, hn⟩)
      · exact absurd rfl (h elems)
      · cases hx
        refine ⟨rfl, ?_, ?_⟩
        · exact (enif_is_identical_atom _ _).mpr rfl
        · exact (enif_get_uint_eq_none x).mpr hn
    · rintro ⟨hlen, hid, hu⟩
      right
      match elems, hlen with
      | [a, b], _ =>
        have ha : a = a_offset := (enif_is_identical_atom _ _).mp hid
        subst ha
        exact ⟨b, rfl, (enif_get_uint_eq_none b).mp hu⟩
  | _ => simp [enif_get_tuple]

theorem parse_match_options_loop_fails_iff :
    ∀ (l : List Term) (t : Term) (opts : matchoptions), Term.cells t = l →
      ((parse_match_options_loop t opts).1 = false ↔ ∃ H ∈ l, rejected_match_option H) := by
  intro l
  induction l with
  | nil =>
    intro t opts ht
    cases t <;> simp [Term.cells] at ht <;> simp [parse_match_options_loop]
  | cons H l ih =>
    intro t opts ht
    cases t <;> simp [Term.cells] at ht
    rename_i h T
    obtain ⟨h1, h2⟩ := ht
    subst h1
    have hrej := rejected_match_option_iff h
    rw [parse_match_options_loop]
    cases hg : enif_get_tuple h with
    | none =>
      rw [hg] at hrej
      simp only
      constructor
      · intro _
        exact ⟨h, List.mem_cons_self _ _, hrej.mpr trivial⟩
      · intro _
        trivial
    | some tuple =>
      rw [hg] at hrej
      simp only at hrej ⊢
      have key : ∀ o : matchoptions, ¬ rejected_match_option h →
          ((parse_match_options_loop T o).1 = false ↔
            ∃ H ∈ h :: l, rejected_match_option H) := by
        intro o hnot
        rw [ih T o h2]
        constructor
        · rintro ⟨H, hm, hr⟩
          exact ⟨H, List.mem_cons_of_mem _ hm, hr⟩
        · rintro ⟨H, hm, hr⟩
          rcases List.mem_cons.mp hm with rfl | hm
          · exact absurd hr hnot
          · exact ⟨H, hm, hr⟩
      by_cases hoff : tuple.length = 2 ∧
          enif_is_identical (tuple.getD 0 .nil) a_offset = true
      · rw [if_pos hoff]
        cases hu : enif_get_uint (tuple.getD 1 .nil) with
        | none =>
          simp only
          constructor
          · intro _
            exact ⟨h, List.mem_cons_self _ _, hrej.mpr ⟨hoff.1, hoff.2, hu⟩⟩
          · intro _
            trivial
        | some offset =>
          simp only
          apply key
          intro hr
          have := (hrej.mp hr).2.2
          rw [hu] at this
          cases this
      · rw [if_neg hoff]
        have hnot : ¬ rejected_match_option h := fun hr =>
          hoff ⟨(hrej.mp hr).1, (hrej.mp hr).2.1⟩
        split
        · exact key _ hnot
        · exact key _ hnot

theorem parse_match_options_fails_iff (list : Term) (opts : matchoptions) :
    (parse_match_options list opts).1 = false ↔
      ∃ H ∈ Term.cells list, rejected_match_option H := by
  unfold parse_match_options
  by_cases he : enif_is_empty_list list = true
  · rw [if_pos he]
    cases list <;> simp [enif_is_empty_list] at he
    simp [Term.cells]
  · rw [if_neg he]
    exact parse_match_options_loop_fails_iff _ list opts rfl

theorem match_impl_badarg_of_parse_fails (eng : pcre2_engine) (env : nif_env)
    (argv0 argv1 list : Term) (h : (parse_match_options list matchoptions.init).1 = false) :
    match_impl eng env argv0 argv1 (some list) = (.badarg, env) := by
  unfold match_impl
  cases enif_inspect_iolist_as_binary argv0 with
  | none => rfl
  | some subj => simp only [h, if_true]

/-- C6 (as stated, refuted): the option lists `[{foo, 1}]` (unknown tag),
`[{capture, foo}]` (unknown value-spec), `[{capture, all, foo}]` (unknown type)
and `[{capture, all, index, 1}]` (other arity) all parse successfully, and a
match with `[{foo, 1}]` returns `{match, [{1, 2}]}`, not bad argument. -/
theorem C6_match_options_counterexample :
    (parse_match_options (Term.ofList [.tuple [.atom "foo", .int 1]])
        matchoptions.init).1 = true ∧
      (parse_match_options (Term.ofList [capture2 (.atom "foo")]) matchoptions.init).1 = true ∧
      (parse_match_options (Term.ofList [capture3 a_all (.atom "foo")])
        matchoptions.init).1 = true ∧
      (parse_match_options (Term.ofList [.tuple [a_capture, a_all, a_index, .int 1]])
        matchoptions.init).1 = true ∧
      (match_impl engine_digits env_one_handle (.binary [120, 52, 50, 121]) (.resource 0)
        (some (Term.ofList [.tuple [.atom "foo", .int 1]]))).1 =
          .term (match_term [.tuple [.int 1, .int 2]]) ∧
      (match_impl engine_digits env_one_handle (.binary [120, 52, 50, 121]) (.resource 0)
        (some (Term.ofList [.tuple [.atom "foo", .int 1]]))).1 ≠ .badarg := by
  have hm : (match_impl engine_digits env_one_handle (.binary [120, 52, 50, 121])
      (.resource 0) (some (Term.ofList [.tuple [.atom "foo", .int 1]]))).1 =
      .term (match_term [.tuple [.int 1, .int 2]]) := by
    have hreach : reaches_scan env_one_handle (.binary [120, 52, 50, 121]) (.resource 0)
        (some (Term.ofList [.tuple [.atom "foo", .int 1]])) [120, 52, 50, 121]
        matchoptions.init { id := 0 } := ⟨rfl, rfl, rfl⟩
    have hscan : engine_digits.pcre2_match { id := 0 } [120, 52, 50, 121]
        matchoptions.init.offset
        (engine_digits.pcre2_match_data_create_from_pattern { id := 0 }) =
        (1, some { ovector_count := 1, ovector := [1, 3] }) := rfl
    rw [match_impl_loop engine_digits hreach hscan (by decide)
      ⟨by decide, by decide, rfl⟩ (by decide) (by decide) 0 rfl
      (by
        intro k hk
        have : k = 0 := by
          change k < 1 at hk
          omega
        subst this
        rfl)]
    rfl
  refine ⟨rfl, rfl, rfl, rfl, hm, ?_⟩
  rw [hm]
  simp

/-- C6 (amended): parse_match_options fails exactly when the list holds an
element that is not a tuple, or an `{offset, X}` whose `X` is not an integer
in `0 .. 2^32 - 1`; in that case match returns bad argument and the engine is
not called.  Every other tuple element is accepted. -/
theorem C6_match_options_rejected (list : Term) (opts : matchoptions) :
    ((parse_match_options list opts).1 = false ↔
      ∃ H ∈ Term.cells list, rejected_match_option H) ∧
    ((∃ H ∈ Term.cells list, rejected_match_option H) →
      ∀ (eng : pcre2_engine) (env : nif_env) (argv0 argv1 : Term),
        match_impl eng env argv0 argv1 (some list) = (.badarg, env)) := by
  refine ⟨parse_match_options_fails_iff list opts, ?_⟩
  intro h eng env argv0 argv1
  exact match_impl_badarg_of_parse_fails eng env argv0 argv1 list
    ((parse_match_options_fails_iff list matchoptions.init).mpr h)

/-- Witness for C6 (amended): the list `[{capture, all}, {offset, -1}]`. -/
theorem C6_match_options_rejected_witness :
    match_impl engine_digits env_one_handle (.binary [120]) (.resource 0)
        (some (Term.ofList [capture2 a_all, .tuple [a_offset, .int (-1)]])) =
      (.badarg, env_one_handle) :=
  (C6_match_options_rejected (Term.ofList [capture2 a_all, .tuple [a_offset, .int (-1)]])
      matchoptions.init).2
    ⟨.tuple [a_offset, .int (-1)], by simp [Term.ofList, Term.cells],
      Or.inr ⟨.int (-1), rfl, fun n h0 _ hn => by
        cases hn
        exact absurd h0 (by decide)⟩⟩
    engine_digits env_one_handle (.binary [120]) (.resource 0)

/-! ## Compile option lists -/

theorem enif_is_identical_atom_false (t : Term) (s : String) :
    enif_is_identical t (.atom s) = false ↔ t ≠ .atom s := by
  rw [Ne, ← enif_is_identical_atom t s]
  simp

theorem rejected_compile_option_iff (H : Term) :
    rejected_compile_option H ↔
      (enif_is_identical H a_caseless = false ∧ enif_is_identical H a_extended = false ∧
        enif_is_identical H a_dotall = false ∧ enif_is_identical H a_multiline = false) ∧
      match enif_get_tuple H with
      | none => True
      | some tuple => tuple.length = 2 ∧
          enif_is_identical (tuple.getD 0 .nil) a_max_mem = true ∧
          enif_get_int (tuple.getD 1 .nil) = none := by
  unfold rejected_compile_option
  simp only [a_caseless, a_extended, a_dotall, a_multiline, a_max_mem, enif_make_atom,
    enif_is_identical_atom_false]
  cases H with
  | tuple elems =>
    simp only [enif_get_tuple]
    constructor
    · rintro (h | ⟨x, hx, hn⟩)
      · exact absurd rfl (h.1 elems)
      · cases hx
        refine ⟨by simp, rfl, ?_, ?_⟩
        · exact (enif_is_identical_atom _ _).mpr rfl
        · exact (enif_get_int_eq_none x).mpr hn
    · rintro ⟨_, hlen, hid, hu⟩
      right
      match elems, hlen with
      | [a, b], _ =>
        have ha : a = .atom "max_mem" := (enif_is_identical_atom _ _).mp hid
        subst ha
        exact ⟨b, rfl, (enif_get_int_eq_none b).mp hu⟩
  | atom s => simp [enif_get_tuple]
  | _ => simp [enif_get_tuple]

theorem parse_compile_options_loop_fails_iff :
    ∀ (l : List Term) (t : Term) (opts : Nat), Term.cells t = l →
      ((parse_compile_options_loop t opts).1 = false ↔
        ∃ H ∈ l, rejected_compile_option H) := by
  intro l
  induction l with
  | nil =>
    intro t opts ht
    cases t <;> simp [Term.cells] at ht <;> simp [parse_compile_options_loop]
  | cons H l ih =>
    intro t opts ht
    cases t <;> simp [Term.cells] at ht
    rename_i h T
    obtain ⟨h1, h2⟩ := ht
    subst h1
    have hrej := rejected_compile_option_iff h
    have key : ∀ o : Nat, ¬ rejected_compile_option h →
        ((parse_compile_options_loop T o).1 = false ↔
          ∃ H ∈ h :: l, rejected_compile_option H) := by
      intro o hnot
      rw [ih T o h2]
      constructor
      · rintro ⟨H, hm, hr⟩
        exact ⟨H, List.mem_cons_of_mem _ hm, hr⟩
      · rintro ⟨H, hm, hr⟩
        rcases List.mem_cons.mp hm with rfl | hm
        · exact absurd hr hnot
        · exact ⟨H, hm, hr⟩
    rw [parse_compile_options_loop]
    by_cases c1 : enif_is_identical h a_caseless = true
    · rw [if_pos c1]
      exact key _ (fun hr => by simp [(hrej.mp hr).1.1] at c1)
    rw [if_neg c1]
    by_cases c2 : enif_is_identical h a_extended = true
    · rw [if_pos c2]
      exact key _ (fun hr => by simp [(hrej.mp hr).1.2.1] at c2)
    rw [if_neg c2]
    by_cases c3 : enif_is_identical h a_dotall = true
    · rw [if_pos c3]
      exact key _ (fun hr => by simp [(hrej.mp hr).1.2.2.1] at c3)
    rw [if_neg c3]
    by_cases c4 : enif_is_identical h a_multiline = true
    · rw [if_pos c4]
      exact key _ (fun hr => by simp [(hrej.mp hr).1.2.2.2] at c4)
    rw [if_neg c4]
    have hflags : enif_is_identical h a_caseless = false ∧
        enif_is_identical h a_extended = false ∧ enif_is_identical h a_dotall = false ∧
        enif_is_identical h a_multiline = false :=
      ⟨by simpa using c1, by simpa using c2, by simpa using c3, by simpa using c4⟩
    cases hg : enif_get_tuple h with
    | none =>
      rw [hg] at hrej
      simp only
      constructor
      · intro _
        exact ⟨h, List.mem_cons_self _ _, hrej.mpr ⟨hflags, trivial⟩⟩
      · intro _
        trivial
    | some tuple =>
      rw [hg] at hrej
      simp only at hrej ⊢
      by_cases hlen : tuple.length = 2
      · rw [if_pos hlen]
        by_cases hid : enif_is_identical (tuple.getD 0 .nil) a_max_mem = true
        · rw [if_pos hid]
          cases hu : enif_get_int (tuple.getD 1 .nil) with
          | none =>
            simp only
            constructor
            · intro _
              exact ⟨h, List.mem_cons_self _ _, hrej.mpr ⟨hflags, hlen, hid, hu⟩⟩
            · intro _
              trivial
          | some v =>
            simp only
            apply key
            intro hr
            have := (hrej.mp hr).2.2.2
            rw [hu] at this
            cases this
        · rw [if_neg hid]
          exact key _ (fun hr => hid (hrej.mp hr).2.2.1)
      · rw [if_neg hlen]
        exact key _ (fun hr => hlen (hrej.mp hr).2.1)

theorem parse_compile_options_fails_iff (list : Term) (opts : Nat) :
    (parse_compile_options list opts).1 = false ↔
      ∃ H ∈ Term.cells list, rejected_compile_option H := by
  unfold parse_compile_options
  by_cases he : enif_is_empty_list list = true
  · rw [if_pos he]
    cases list <;> simp [enif_is_empty_list] at he
    simp [Term.cells]
  · rw [if_neg he]
    exact parse_compile_options_loop_fails_iff _ list opts rfl

theorem compile_impl_badarg_of_parse_fails (eng : pcre2_engine) (env : nif_env)
    (argv0 list : Term) (halloc : env.alloc_resource_ok = true)
    (h : (parse_compile_options list 0).1 = false) :
    compile_impl eng env argv0 (some list) = (.badarg, env) := by
  obtain ⟨res, ok, calls⟩ := env
  simp only at halloc
  subst halloc
  unfold compile_impl
  cases enif_inspect_iolist_as_binary argv0 with
  | none => rfl
  | some pdata =>
    simp only [Bool.true_eq_false, if_false, h, if_true]
    rfl

/-- C7 (as stated, refuted): the option lists `[{foo, 1}]` (a tuple whose tag
is not `max_mem`) and `[{max_mem, 1, 2}]` (arity not 2) parse successfully, and
a compile with `[{foo, 1}]` calls the engine and returns `{ok, Handle}`. -/
theorem C7_compile_options_counterexample :
    (parse_compile_options (Term.ofList [.tuple [.atom "foo", .int 1]]) 0).1 = true ∧
      (parse_compile_options (Term.ofList [.tuple [a_max_mem, .int 1, .int 2]]) 0).1 = true ∧
      (compile_impl engine_digits env_one_handle (.binary [97])
        (some (Term.ofList [.tuple [.atom "foo", .int 1]]))).1 =
          .term (.tuple [a_ok, .resource 1]) ∧
      (compile_impl engine_digits env_one_handle (.binary [97])
        (some (Term.ofList [.tuple [.atom "foo", .int 1]]))).1 ≠ .badarg ∧
      (compile_impl engine_digits env_one_handle (.binary [97])
        (some (Term.ofList [.tuple [.atom "foo", .int 1]]))).2.calls =
          [engine_call.compile [97] 0] := by
  have hc : (compile_impl engine_digits env_one_handle (.binary [97])
      (some (Term.ofList [.tuple [.atom "foo", .int 1]]))).1 =
      .term (.tuple [a_ok, .resource 1]) := rfl
  refine ⟨rfl, rfl, hc, ?_, rfl⟩
  rw [hc]
  simp

/-- C7 (amended): parse_compile_options fails exactly when the list holds an
element that is neither a tuple nor one of `caseless`, `extended`, `dotall`,
`multiline`, or a `{max_mem, X}` whose `X` is not an integer in
`-2^31 .. 2^31 - 1`; in that case, when the handle can be allocated, compile
returns bad argument and makes no call to the engine.  Every other tuple
element is accepted. -/
theorem C7_compile_options_rejected (list : Term) (opts : Nat) :
    ((parse_compile_options list opts).1 = false ↔
      ∃ H ∈ Term.cells list, rejected_compile_option H) ∧
    ((∃ H ∈ Term.cells list, rejected_compile_option H) →
      ∀ (eng : pcre2_engine) (env : nif_env) (argv0 : Term),
        env.alloc_resource_ok = true →
        compile_impl eng env argv0 (some list) = (.badarg, env)) := by
  refine ⟨parse_compile_options_fails_iff list opts, ?_⟩
  intro h eng env argv0 halloc
  exact compile_impl_badarg_of_parse_fails eng env argv0 list halloc
    ((parse_compile_options_fails_iff list 0).mpr h)

/-- Witness for C7 (amended): the list `[caseless, unicode]`. -/
theorem C7_compile_options_rejected_witness :
    compile_impl engine_digits env_one_handle (.binary [97])
        (some (Term.ofList [a_caseless, .atom "unicode"])) = (.badarg, env_one_handle) :=
  (C7_compile_options_rejected (Term.ofList [a_caseless, .atom "unicode"]) 0).2
    ⟨.atom "unicode", by simp [Term.ofList, Term.cells],
      Or.inl ⟨fun _ h => (by cases h), (by simp [a_caseless, enif_make_atom]),
        (by simp [a_extended, enif_make_atom]), (by simp [a_dotall, enif_make_atom]),
        (by simp [a_multiline, enif_make_atom])⟩⟩
    engine_digits env_one_handle (.binary [97]) rfl

/-! ## The capture element -/

/-- C8 (code at the failing input): from the default options, the element
`{capture, foo, binary}` with the unrecognised value-spec `foo` leaves the
value-spec at ALL but changes the capture type from INDEX to BINARY, and a
match of the `(a)(b)?` scan with that option list returns binaries. -/
theorem C8_unrecognised_value_spec_sets_type :
    matchoptions.init.ct = .CT_INDEX ∧
      (parse_match_capture_options matchoptions.init
        [a_capture, .atom "foo", a_binary] 3).vs = .VS_ALL ∧
      (parse_match_capture_options matchoptions.init
        [a_capture, .atom "foo", a_binary] 3).ct = .CT_BINARY ∧
      (parse_match_options (Term.ofList [capture3 (.atom "foo") a_binary])
        matchoptions.init).1 = true ∧
      (parse_match_options (Term.ofList [capture3 (.atom "foo") a_binary])
        matchoptions.init).2.ct = .CT_BINARY ∧
      (match_impl engine_a_opt_b env_one_handle (.binary [97]) (.resource 0)
        (some (Term.ofList [capture3 (.atom "foo") a_binary]))).1 =
          .term (match_term [.binary [97], .binary [97], .binary []]) := by
  refine ⟨rfl, rfl, rfl, rfl, rfl, ?_⟩
  have hreach : reaches_scan env_one_handle (.binary [97]) (.resource 0)
      (some (Term.ofList [capture3 (.atom "foo") a_binary])) [97]
      { matchoptions.init with ct := .CT_BINARY } { id := 0 } := ⟨rfl, rfl, rfl⟩
  have hscan : engine_a_opt_b.pcre2_match { id := 0 } [97] 0
      (engine_a_opt_b.pcre2_match_data_create_from_pattern { id := 0 }) =
      (2, some { ovector_count := 3, ovector := [0, 1, 0, 1, PCRE2_UNSET, PCRE2_UNSET] }) :=
    rfl
  rw [match_impl_loop engine_a_opt_b hreach hscan (by decide) ⟨by decide, by decide, rfl⟩
    (by decide) (by decide) 0 rfl
    (by
      intro k hk
      have : k = 0 ∨ k = 1 ∨ k = 2 := by
        change k < 3 at hk
        omega
      rcases this with h | h | h <;> subst h <;> rfl)]
  rfl

/-! ## The compile flag mask -/

theorem ite_or_flag (a b : Bool) (k : Nat) :
    (if (a || b) = true then k else 0) = (if a = true then k else 0) ||| (if b = true then k else 0) := by
  cases a <;> cases b <;> simp

theorem has_tag_append (l m : List Term) (tag : Term) :
    has_tag (l ++ m) tag = (has_tag l tag || has_tag m tag) := by
  unfold has_tag
  rw [List.any_append]

theorem has_tag_cons (H : Term) (l : List Term) (tag : Term) :
    has_tag (H :: l) tag = (enif_is_identical H tag || has_tag l tag) := by
  unfold has_tag
  rw [List.any_cons]

theorem has_tag_congr {l m : List Term} (h : ∀ H, H ∈ l ↔ H ∈ m) (tag : Term) :
    has_tag l tag = has_tag m tag := by
  unfold has_tag
  rw [Bool.eq_iff_iff, List.any_eq_true, List.any_eq_true]
  constructor
  · rintro ⟨H, hm, hi⟩
    exact ⟨H, (h H).mp hm, hi⟩
  · rintro ⟨H, hm, hi⟩
    exact ⟨H, (h H).mpr hm, hi⟩

theorem compile_mask_append (l m : List Term) :
    compile_mask (l ++ m) = compile_mask l ||| compile_mask m := by
  unfold compile_mask
  simp only [has_tag_append, ite_or_flag]
  ac_rfl

theorem compile_mask_cons_other (H : Term) (l : List Term)
    (h1 : enif_is_identical H a_caseless = false) (h2 : enif_is_identical H a_extended = false)
    (h3 : enif_is_identical H a_dotall = false) (h4 : enif_is_identical H a_multiline = false) :
    compile_mask (H :: l) = compile_mask l := by
  unfold compile_mask
  simp only [has_tag_cons, h1, h2, h3, h4, Bool.false_or]

theorem compile_mask_singleton_caseless : compile_mask [a_caseless] = PCRE2_CASELESS := by rfl

theorem compile_mask_singleton_extended : compile_mask [a_extended] = PCRE2_EXTENDED := by rfl

theorem compile_mask_singleton_dotall : compile_mask [a_dotall] = PCRE2_DOTALL := by rfl

theorem compile_mask_singleton_multiline : compile_mask [a_multiline] = PCRE2_MULTILINE := by
  rfl

theorem compile_mask_nil : compile_mask [] = 0 := by rfl

theorem compile_mask_cons_eq (H : Term) (l : List Term) :
    compile_mask (H :: l) = compile_mask [H] ||| compile_mask l :=
  compile_mask_append [H] l

theorem parse_compile_options_loop_mask :
    ∀ (l : List Term) (t : Term) (opts : Nat), Term.cells t = l →
      (parse_compile_options_loop t opts).1 = true →
      (parse_compile_options_loop t opts).2 = opts ||| compile_mask l := by
  intro l
  induction l with
  | nil =>
    intro t opts ht _
    cases t <;> simp [Term.cells] at ht <;>
      simp [parse_compile_options_loop, compile_mask_nil]
  | cons H l ih =>
    intro t opts ht
    cases t <;> simp [Term.cells] at ht
    rename_i h T
    obtain ⟨h1, h2⟩ := ht
    subst h1
    rw [parse_compile_options_loop]
    by_cases c1 : enif_is_identical h a_caseless = true
    · rw [if_pos c1]
      intro hok
      have hh : h = a_caseless := (enif_is_identical_atom _ _).mp c1
      rw [ih T _ h2 hok, compile_mask_cons_eq, hh, compile_mask_singleton_caseless,
        Nat.lor_assoc]
    rw [if_neg c1]
    by_cases c2 : enif_is_identical h a_extended = true
    · rw [if_pos c2]
      intro hok
      have hh : h = a_extended := (enif_is_identical_atom _ _).mp c2
      rw [ih T _ h2 hok, compile_mask_cons_eq, hh, compile_mask_singleton_extended,
        Nat.lor_assoc]
    rw [if_neg c2]
    by_cases c3 : enif_is_identical h a_dotall = true
    · rw [if_pos c3]
      intro hok
      have hh : h = a_dotall := (enif_is_identical_atom _ _).mp c3
      rw [ih T _ h2 hok, compile_mask_cons_eq, hh, compile_mask_singleton_dotall,
        Nat.lor_assoc]
    rw [if_neg c3]
    by_cases c4 : enif_is_identical h a_multiline = true
    · rw [if_pos c4]
      intro hok
      have hh : h = a_multiline := (enif_is_identical_atom _ _).mp c4
      rw [ih T _ h2 hok, compile_mask_cons_eq, hh, compile_mask_singleton_multiline,
        Nat.lor_assoc]
    rw [if_neg c4]
    rw [compile_mask_cons_other h l (by simpa using c1) (by simpa using c2)
      (by simpa using c3) (by simpa using c4)]
    cases hg : enif_get_tuple h with
    | none =>
      simp only
      intro hf
      cases hf
    | some tuple =>
      simp only
      by_cases hlen : tuple.length = 2
      · rw [if_pos hlen]
        by_cases hid : enif_is_identical (tuple.getD 0 .nil) a_max_mem = true
        · rw [if_pos hid]
          cases hu : enif_get_int (tuple.getD 1 .nil) with
          | none =>
            simp only
            intro hf
            cases hf
          | some v =>
            simp only
            exact ih T opts h2
        · rw [if_neg hid]
          exact ih T opts h2
      · rw [if_neg hlen]
        exact ih T opts h2

theorem parse_compile_options_mask (list : Term) (opts : Nat)
    (h : (parse_compile_options list opts).1 = true) :
    (parse_compile_options list opts).2 = opts ||| compile_mask (Term.cells list) := by
  unfold parse_compile_options at h ⊢
  by_cases he : enif_is_empty_list list = true
  · rw [if_pos he]
    cases list <;> simp [enif_is_empty_list] at he
    simp [Term.cells, compile_mask_nil]
  · rw [if_neg he] at h ⊢
    exact parse_compile_options_loop_mask _ list opts rfl h

theorem parse_compile_options_ok_any (list : Term) (o o' : Nat)
    (h : (parse_compile_options list o).1 = true) : (parse_compile_options list o').1 = true := by
  by_contra hn
  have hf : (parse_compile_options list o').1 = false := by simpa using hn
  have := (parse_compile_options_fails_iff list o).mpr
    ((parse_compile_options_fails_iff list o').mp hf)
  rw [h] at this
  cases this

theorem compile_impl_calls (eng : pcre2_engine) (env : nif_env) (argv0 list : Term)
    (pdata : List Nat) (hp : enif_inspect_iolist_as_binary argv0 = some pdata)
    (halloc : env.alloc_resource_ok = true)
    (h : (parse_compile_options list 0).1 = true) :
    (compile_impl eng env argv0 (some list)).2.calls =
      env.calls ++ [engine_call.compile pdata (parse_compile_options list 0).2] := by
  obtain ⟨res, ok, calls⟩ := env
  simp only at halloc
  subst halloc
  unfold compile_impl
  simp only [hp, h, Bool.true_eq_false, if_false]
  cases eng.pcre2_compile pdata (parse_compile_options list 0).2 with
  | error e => rfl
  | ok code => rfl

/-- C11: when a compile option list parses, the flag word is the initial word
OR-ed with the flags of the bare tags `caseless`, `extended`, `dotall`,
`multiline` that occur in the list, and that is the mask handed to the
engine.  The mask depends only on which elements occur (not on their order or
multiplicity), appending elements only ORs further flags in, and a
`{max_mem, N}` element contributes nothing. -/
theorem C11_compile_mask (list : Term) (opts : Nat)
    (h : (parse_compile_options list opts).1 = true) :
    (parse_compile_options list opts).2 = opts ||| compile_mask (Term.cells list) ∧
    (∀ list' : Term, (∀ H, H ∈ Term.cells list ↔ H ∈ Term.cells list') →
      compile_mask (Term.cells list') = compile_mask (Term.cells list)) ∧
    (∀ more : List Term,
      compile_mask (Term.cells list ++ more) =
        compile_mask (Term.cells list) ||| compile_mask more) ∧
    (∀ (before after : List Term) (x : Term),
      Term.cells list = before ++ [Term.tuple [a_max_mem, x]] ++ after →
      compile_mask (Term.cells list) = compile_mask (before ++ after)) ∧
    (∀ (eng : pcre2_engine) (env : nif_env) (argv0 : Term) (pdata : List Nat),
      enif_inspect_iolist_as_binary argv0 = some pdata → env.alloc_resource_ok = true →
      (compile_impl eng env argv0 (some list)).2.calls =
        env.calls ++ [engine_call.compile pdata (compile_mask (Term.cells list))]) := by
  refine ⟨parse_compile_options_mask list opts h, ?_, ?_, ?_, ?_⟩
  · intro list' hmem
    unfold compile_mask
    simp only [has_tag_congr hmem]
  · intro more
    exact compile_mask_append _ _
  · intro before after x hx
    rw [hx, compile_mask_append, compile_mask_append, compile_mask_append,
      compile_mask_cons_other (Term.tuple [a_max_mem, x]) [] rfl rfl rfl rfl, compile_mask_nil, Nat.or_zero]
  · intro eng env argv0 pdata hp halloc
    have h0 := parse_compile_options_ok_any list opts 0 h
    rw [compile_impl_calls eng env argv0 list pdata hp halloc h0,
      parse_compile_options_mask list 0 h0, Nat.zero_or]

/-- Witness for C11: the list `[multiline, {max_mem, 7}, caseless, multiline]`
gives the mask `PCRE2_CASELESS ||| PCRE2_MULTILINE`, which the engine receives. -/
theorem C11_compile_mask_witness :
    (parse_compile_options
        (Term.ofList [a_multiline, .tuple [a_max_mem, .int 7], a_caseless, a_multiline]) 0).2 =
      0 ||| (PCRE2_CASELESS ||| PCRE2_MULTILINE) ∧
    (compile_impl engine_digits env_one_handle (.binary [97])
        (some (Term.ofList
          [a_multiline, .tuple [a_max_mem, .int 7], a_caseless, a_multiline]))).2.calls =
      [] ++ [engine_call.compile [97] (PCRE2_CASELESS ||| PCRE2_MULTILINE)] :=
  ⟨(C11_compile_mask
      (Term.ofList [a_multiline, .tuple [a_max_mem, .int 7], a_caseless, a_multiline]) 0
      rfl).1,
   (C11_compile_mask
      (Term.ofList [a_multiline, .tuple [a_max_mem, .int 7], a_caseless, a_multiline]) 0
      rfl).2.2.2.2 engine_digits env_one_handle (.binary [97]) [97] rfl rfl⟩

/-! ## Option arguments that are not proper lists -/

theorem parse_compile_options_loop_cells :
    ∀ (l : List Term) (t : Term) (o : Nat), Term.cells t = l →
      parse_compile_options_loop t o = parse_compile_options_loop (Term.ofList l) o := by
  intro l
  induction l with
  | nil =>
    intro t o ht
    cases t <;> simp [Term.cells] at ht <;> simp [parse_compile_options_loop, Term.ofList]
  | cons H l ih =>
    intro t o ht
    cases t <;> simp [Term.cells] at ht
    rename_i h T
    obtain ⟨h1, h2⟩ := ht
    subst h1
    have ih' : ∀ o, parse_compile_options_loop T o =
        parse_compile_options_loop (Term.ofList l) o := fun o => ih T o h2
    simp only [Term.ofList, parse_compile_options_loop, ih']

theorem parse_match_options_loop_cells :
    ∀ (l : List Term) (t : Term) (o : matchoptions), Term.cells t = l →
      parse_match_options_loop t o = parse_match_options_loop (Term.ofList l) o := by
  intro l
  induction l with
  | nil =>
    intro t o ht
    cases t <;> simp [Term.cells] at ht <;> simp [parse_match_options_loop, Term.ofList]
  | cons H l ih =>
    intro t o ht
    cases t <;> simp [Term.cells] at ht
    rename_i h T
    obtain ⟨h1, h2⟩ := ht
    subst h1
    have ih' : ∀ o, parse_match_options_loop T o =
        parse_match_options_loop (Term.ofList l) o := fun o => ih T o h2
    simp only [Term.ofList, parse_match_options_loop, ih']

theorem parse_compile_options_cells (t : Term) (o : Nat) :
    parse_compile_options t o = parse_compile_options (Term.ofList (Term.cells t)) o := by
  unfold parse_compile_options
  rw [← parse_compile_options_loop_cells (Term.cells t) t o rfl]
  cases t <;> simp [enif_is_empty_list, Term.cells, Term.ofList, parse_compile_options_loop]

theorem parse_match_options_cells (t : Term) (o : matchoptions) :
    parse_match_options t o = parse_match_options (Term.ofList (Term.cells t)) o := by
  unfold parse_match_options
  rw [← parse_match_options_loop_cells (Term.cells t) t o rfl]
  cases t <;> simp [enif_is_empty_list, Term.cells, Term.ofList, parse_match_options_loop]

/-- C12 (as stated, refuted): the atom `foo`, the integer `5`, the tuple
`{capture, all}` and the improper list `[{capture, first} | x]` all parse as
option arguments; compile with the options `foo` returns `{ok, Handle}` and
match with the options `{capture, all}` returns `{match, [{1, 2}]}`. -/
theorem C12_not_a_list_counterexample :
    (parse_compile_options (.atom "foo") 0).1 = true ∧
      (parse_compile_options (.cons a_caseless (.int 3)) 0).1 = true ∧
      (parse_match_options (.int 5) matchoptions.init).1 = true ∧
      (parse_match_options (.cons (capture2 a_first) (.atom "x")) matchoptions.init).1 = true ∧
      (compile_impl engine_digits env_one_handle (.binary [97]) (some (.atom "foo"))).1 =
        .term (.tuple [a_ok, .resource 1]) ∧
      (compile_impl engine_digits env_one_handle (.binary [97]) (some (.atom "foo"))).1 ≠
        .badarg ∧
      (match_impl engine_digits env_one_handle (.binary [120, 52, 50, 121]) (.resource 0)
        (some (capture2 a_all))).1 = .term (match_term [.tuple [.int 1, .int 2]]) ∧
      (match_impl engine_digits env_one_handle (.binary [120, 52, 50, 121]) (.resource 0)
        (some (capture2 a_all))).1 ≠ .badarg := by
  have hc : (compile_impl engine_digits env_one_handle (.binary [97])
      (some (.atom "foo"))).1 = .term (.tuple [a_ok, .resource 1]) := rfl
  have hm : (match_impl engine_digits env_one_handle (.binary [120, 52, 50, 121])
      (.resource 0) (some (capture2 a_all))).1 =
      .term (match_term [.tuple [.int 1, .int 2]]) := by
    have hreach : reaches_scan env_one_handle (.binary [120, 52, 50, 121]) (.resource 0)
        (some (capture2 a_all)) [120, 52, 50, 121] matchoptions.init { id := 0 } :=
      ⟨rfl, rfl, rfl⟩
    have hscan : engine_digits.pcre2_match { id := 0 } [120, 52, 50, 121]
        matchoptions.init.offset
        (engine_digits.pcre2_match_data_create_from_pattern { id := 0 }) =
        (1, some { ovector_count := 1, ovector := [1, 3] }) := rfl
    rw [match_impl_loop engine_digits hreach hscan (by decide)
      ⟨by decide, by decide, rfl⟩ (by decide) (by decide) 0 rfl
      (by
        intro k hk
        have : k = 0 := by
          change k < 1 at hk
          omega
        subst this
        rfl)]
    rfl
  refine ⟨rfl, rfl, rfl, rfl, hc, ?_, hm, ?_⟩
  · rw [hc]
    simp
  · rw [hm]
    simp

/-- C12 (amended): both parsers read an options argument as the list of its
cons cells and stop at the first tail that is not a cons cell, whatever that
tail is: an argument that is not a list parses like the empty list (success,
options untouched), a list with a non-list tail parses like the proper list of
its elements, and compile/2 and match/3 return what they return for that
proper list. -/
theorem C12_options_read_as_cells (t : Term) (o : Nat) (m : matchoptions) :
    parse_compile_options t o = parse_compile_options (Term.ofList (Term.cells t)) o ∧
    parse_match_options t m = parse_match_options (Term.ofList (Term.cells t)) m ∧
    (∀ (eng : pcre2_engine) (env : nif_env) (argv0 : Term),
      compile_impl eng env argv0 (some t) =
        compile_impl eng env argv0 (some (Term.ofList (Term.cells t)))) ∧
    (∀ (eng : pcre2_engine) (env : nif_env) (argv0 argv1 : Term),
      match_impl eng env argv0 argv1 (some t) =
        match_impl eng env argv0 argv1 (some (Term.ofList (Term.cells t)))) ∧
    (Term.cells t = [] →
      parse_compile_options t o = (true, o) ∧ parse_match_options t m = (true, m)) := by
  refine ⟨parse_compile_options_cells t o, parse_match_options_cells t m, ?_, ?_, ?_⟩
  · intro eng env argv0
    unfold compile_impl
    simp only [parse_compile_options_cells t 0]
  · intro eng env argv0 argv1
    unfold match_impl
    simp only [parse_match_options_cells t matchoptions.init]
  · intro hc
    rw [parse_compile_options_cells t o, parse_match_options_cells t m, hc]
    exact ⟨rfl, rfl⟩

/-- Witness for C12 (amended): the atom `foo` as the options argument. -/
theorem C12_options_read_as_cells_witness :
    parse_compile_options (.atom "foo") 0 = (true, 0) ∧
      parse_match_options (.atom "foo") matchoptions.init = (true, matchoptions.init) :=
  (C12_options_read_as_cells (.atom "foo") 0 matchoptions.init).2.2.2.2 rfl

/-! ## Release of a handle -/

theorem run_cleanup_eq (c : cleanup_call) (handle : re_handle) (calls : List engine_call) :
    run_cleanup c (handle, calls) = ({ re := none }, calls ++ frees_owed handle) := by
  obtain ⟨re⟩ := handle
  cases c <;> cases re <;>
    simp [run_cleanup, re_resource_cleanup, cleanup_handle, cleanup_obj_ptr, frees_owed]

theorem run_cleanups_released (seq : List cleanup_call) (calls : List engine_call) :
    run_cleanups seq { re := none } calls = ({ re := none }, calls) := by
  unfold run_cleanups
  induction seq with
  | nil => rfl
  | cons c seq ih =>
    rw [List.foldl_cons, run_cleanup_eq]
    simpa [frees_owed] using ih

/-- C13: for every handle and every non-empty sequence of releases (the
explicit `cleanup_handle`, the destructor `re_resource_cleanup`, in any order
and number), the engine's free operation is called exactly once on the held
pattern, or not at all when the handle held none; the pattern pointer is null
afterwards, and one more release changes nothing. -/
theorem C13_released_exactly_once (seq : List cleanup_call) (handle : re_handle)
    (calls : List engine_call) (hseq : seq ≠ []) :
    (run_cleanups seq handle calls).1.re = none ∧
    (run_cleanups seq handle calls).2 = calls ++ frees_owed handle ∧
    (handle.re = none → (run_cleanups seq handle calls).2 = calls) ∧
    (∀ code, handle.re = some code →
      (run_cleanups seq handle calls).2 = calls ++ [engine_call.code_free code]) ∧
    ∀ c : cleanup_call,
      run_cleanup c (run_cleanups seq handle calls) = run_cleanups seq handle calls := by
  have key : run_cleanups seq handle calls = ({ re := none }, calls ++ frees_owed handle) := by
    cases seq with
    | nil => exact absurd rfl hseq
    | cons c rest =>
      have := run_cleanups_released rest (calls ++ frees_owed handle)
      unfold run_cleanups at this ⊢
      rw [List.foldl_cons, run_cleanup_eq]
      exact this
  rw [key]
  refine ⟨rfl, rfl, ?_, ?_, ?_⟩
  · intro h
    simp [frees_owed, h]
  · intro code h
    simp [frees_owed, h]
  · intro c
    rw [run_cleanup_eq]
    simp [frees_owed]

/-- Witness for C13: a handle holding a pattern, released explicitly and then
twice by the destructor. -/
theorem C13_released_exactly_once_witness :
    (run_cleanups [.explicit, .destructor, .destructor] { re := some { id := 7 } } []).1.re =
        none ∧
    (run_cleanups [.explicit, .destructor, .destructor] { re := some { id := 7 } } []).2 =
        [] ++ [engine_call.code_free { id := 7 }] :=
  ⟨(C13_released_exactly_once [.explicit, .destructor, .destructor]
      { re := some { id := 7 } } [] (by decide)).1,
   (C13_released_exactly_once [.explicit, .destructor, .destructor]
      { re := some { id := 7 } } [] (by decide)).2.2.2.1 { id := 7 } rfl⟩

/-! ## Value-spec NONE -/

/-- C14: for a live handle, an iolist subject and options with value-spec
NONE, match returns `nomatch` when the scan's code is negative and the bare
atom `match` otherwise; the result depends neither on the offset vector nor
on the capture type. -/
theorem C14_none_is_bare_indicator (eng : pcre2_engine) (env : nif_env) (argv0 argv1 : Term)
    (argv2 : Option Term) (subj : List Nat) (opts : matchoptions) (re : pcre2_code)
    (rc : Int) (md : pcre2_match_data)
    (hreach : reaches_scan env argv0 argv1 argv2 subj opts re)
    (hvs : opts.vs = .VS_NONE)
    (hscan : eng.pcre2_match re subj opts.offset
      (eng.pcre2_match_data_create_from_pattern re) = (rc, some md)) :
    (match_impl eng env argv0 argv1 argv2).1 =
        (if rc < 0 then .term a_nomatch else .term a_match) ∧
    ((match_impl eng env argv0 argv1 argv2).1 = .term a_nomatch ∨
      (match_impl eng env argv0 argv1 argv2).1 = .term a_match) ∧
    ∀ (subj' : List Nat) (opts' : matchoptions) (md' : pcre2_match_data),
      opts'.vs = .VS_NONE → match_result subj' opts' md' = .term a_match := by
  have hnone : ∀ (subj' : List Nat) (opts' : matchoptions) (md' : pcre2_match_data),
      opts'.vs = .VS_NONE → match_result subj' opts' md' = .term a_match := by
    intro subj' opts' md' h
    unfold match_result
    simp only [if_pos h]
  have hres : (match_impl eng env argv0 argv1 argv2).1 =
      (if rc < 0 then .term a_nomatch else .term a_match) := by
    rw [match_impl_of_reaches_scan eng hreach, hscan]
    simp only [gt_iff_lt]
    split
    · rfl
    · exact hnone subj opts md hvs
  refine ⟨hres, ?_, hnone⟩
  rw [hres]
  split
  · exact Or.inl rfl
  · exact Or.inr rfl

/-- Witness for C14: the `(a)(b)?` scan under `{capture, none, binary}`. -/
theorem C14_none_is_bare_indicator_witness :
    (match_impl engine_a_opt_b env_one_handle (.binary [97]) (.resource 0)
        (some (Term.ofList [capture3 a_none a_binary]))).1 =
      (if (2 : Int) < 0 then .term a_nomatch else .term a_match) :=
  (C14_none_is_bare_indicator engine_a_opt_b env_one_handle (.binary [97]) (.resource 0)
    (some (Term.ofList [capture3 a_none a_binary])) [97]
    { matchoptions.init with vs := .VS_NONE, ct := .CT_BINARY } { id := 0 } 2
    { ovector_count := 3, ovector := [0, 1, 0, 1, PCRE2_UNSET, PCRE2_UNSET] }
    ⟨rfl, rfl, rfl⟩ rfl rfl).1

/-! ## Defaults of the match options -/

theorem parse_match_capture_options_offset (opts : matchoptions) (tuple : List Term)
    (n : Nat) :
    (parse_match_capture_options opts tuple n).offset = opts.offset ∧
      (parse_match_capture_options opts tuple n).caseless = opts.caseless := by
  unfold parse_match_capture_options
  simp only
  split_ifs <;> exact ⟨rfl, rfl⟩

theorem parse_match_capture_options_ct (opts : matchoptions) (tuple : List Term)
    (n : Nat) (hn : n ≠ 3) : (parse_match_capture_options opts tuple n).ct = opts.ct := by
  unfold parse_match_capture_options
  simp only
  have h3 : ∀ b : Bool, ¬ (n = 3 ∧ b = true) := fun _ h => hn h.1
  split_ifs <;> first | rfl | (exfalso; simp_all)

theorem tuple_of_tag {elems : List Term} {s : String} (hlen : elems.length = 2)
    (hid : enif_is_identical (elems.getD 0 .nil) (.atom s) = true) :
    ∃ x, elems = [.atom s, x] := by
  match elems, hlen with
  | [a, b], _ =>
    have ha : a = .atom s := (enif_is_identical_atom _ _).mp hid
    subst ha
    exact ⟨b, rfl⟩

theorem tuple3_of_tag {elems : List Term} {s : String} (hlen : elems.length = 3)
    (hid : enif_is_identical (elems.getD 0 .nil) (.atom s) = true) :
    ∃ x y, elems = [.atom s, x, y] := by
  match elems, hlen with
  | [a, b, c], _ =>
    have ha : a = .atom s := (enif_is_identical_atom _ _).mp hid
    subst ha
    exact ⟨b, c, rfl⟩

theorem enif_get_tuple_eq_some {H : Term} {elems : List Term}
    (h : enif_get_tuple H = some elems) : H = .tuple elems := by
  cases H <;> simp [enif_get_tuple] at h
  rw [h]

theorem parse_match_options_loop_fields :
    ∀ (l : List Term) (t : Term) (start o : matchoptions), Term.cells t = l →
      parse_match_options_loop t start = (true, o) →
      o.caseless = start.caseless ∧
      ((∀ H ∈ l, ¬ is_offset_element H) → o.offset = start.offset) ∧
      ((∀ H ∈ l, ¬ is_capture_element H) → o.vs = start.vs) ∧
      ((∀ H ∈ l, ¬ is_typed_capture_element H) → o.ct = start.ct) := by
  intro l
  induction l with
  | nil =>
    intro t start o ht h
    cases t <;> simp [Term.cells] at ht <;> simp [parse_match_options_loop] at h <;>
      subst h <;> simp
  | cons H l ih =>
    intro t start o ht
    cases t <;> simp [Term.cells] at ht
    rename_i h T
    obtain ⟨h1, h2⟩ := ht
    subst h1
    rw [parse_match_options_loop]
    cases hg : enif_get_tuple h with
    | none =>
      simp only
      intro hf
      cases hf
    | some tuple =>
      have hh : h = .tuple tuple := enif_get_tuple_eq_some hg
      simp only
      by_cases hoff : tuple.length = 2 ∧
          enif_is_identical (tuple.getD 0 .nil) a_offset = true
      · rw [if_pos hoff]
        obtain ⟨x, hx⟩ := tuple_of_tag hoff.1 hoff.2
        have hisoff : is_offset_element h := ⟨x, by rw [hh, hx]; rfl⟩
        cases hu : enif_get_uint (tuple.getD 1 .nil) with
        | none =>
          simp only
          intro hf
          cases hf
        | some offset =>
          simp only
          intro hrec
          obtain ⟨i1, _, i3, i4⟩ := ih T _ o h2 hrec
          refine ⟨i1, ?_, ?_, ?_⟩
          · intro hno
            exact absurd hisoff (hno h (List.mem_cons_self _ _))
          · intro hno
            exact i3 (fun H hm => hno H (List.mem_cons_of_mem _ hm))
          · intro hno
            exact i4 (fun H hm => hno H (List.mem_cons_of_mem _ hm))
      · rw [if_neg hoff]
        by_cases hcap : (tuple.length = 2 ∨ tuple.length = 3) ∧
            enif_is_identical (tuple.getD 0 .nil) a_capture = true
        · rw [if_pos hcap]
          intro hrec
          obtain ⟨i1, i2, i3, i4⟩ := ih T _ o h2 hrec
          have hpo := parse_match_capture_options_offset start tuple tuple.length
          have hiscap : is_capture_element h := by
            rcases hcap.1 with h2' | h3'
            · obtain ⟨x, hx⟩ := tuple_of_tag h2' hcap.2
              exact Or.inl ⟨x, by rw [hh, hx]; rfl⟩
            · obtain ⟨x, y, hx⟩ := tuple3_of_tag h3' hcap.2
              exact Or.inr ⟨x, y, by rw [hh, hx]; rfl⟩
          refine ⟨i1.trans hpo.2, ?_, ?_, ?_⟩
          · intro hno
            rw [i2 (fun H hm => hno H (List.mem_cons_of_mem _ hm))]
            exact hpo.1
          · intro hno
            exact absurd hiscap (hno h (List.mem_cons_self _ _))
          · intro hno
            rw [i4 (fun H hm => hno H (List.mem_cons_of_mem _ hm))]
            apply parse_match_capture_options_ct
            intro h3'
            obtain ⟨x, y, hx⟩ := tuple3_of_tag h3' hcap.2
            exact hno h (List.mem_cons_self _ _) ⟨x, y, by rw [hh, hx]; rfl⟩
        · rw [if_neg hcap]
          intro hrec
          obtain ⟨i1, i2, i3, i4⟩ := ih T _ o h2 hrec
          exact ⟨i1, fun hno => i2 (fun H hm => hno H (List.mem_cons_of_mem _ hm)),
            fun hno => i3 (fun H hm => hno H (List.mem_cons_of_mem _ hm)),
            fun hno => i4 (fun H hm => hno H (List.mem_cons_of_mem _ hm))⟩

theorem parse_match_options_fields (list : Term) (start o : matchoptions)
    (h : parse_match_options list start = (true, o)) :
    o.caseless = start.caseless ∧
    ((∀ H ∈ Term.cells list, ¬ is_offset_element H) → o.offset = start.offset) ∧
    ((∀ H ∈ Term.cells list, ¬ is_capture_element H) → o.vs = start.vs) ∧
    ((∀ H ∈ Term.cells list, ¬ is_typed_capture_element H) → o.ct = start.ct) := by
  unfold parse_match_options at h
  by_cases he : enif_is_empty_list list = true
  · rw [if_pos he] at h
    cases h
    simp
  · rw [if_neg he] at h
    exact parse_match_options_loop_fields _ list start o rfl h

/-- C15: when a match option list parses, the start offset is 0 unless the
list holds an `{offset, X}` element, the value-spec is ALL unless it holds a
`{capture, V}` or `{capture, V, T}` element, and the capture type is INDEX
unless it holds a `{capture, V, T}` element; the empty list leaves all
defaults, and match/2 is match/3 with the empty list. -/
theorem C15_match_option_defaults (list : Term) (o : matchoptions)
    (h : parse_match_options list matchoptions.init = (true, o)) :
    ((∀ H ∈ Term.cells list, ¬ is_offset_element H) → o.offset = 0) ∧
    ((∀ H ∈ Term.cells list, ¬ is_capture_element H) → o.vs = .VS_ALL) ∧
    ((∀ H ∈ Term.cells list, ¬ is_typed_capture_element H) → o.ct = .CT_INDEX) ∧
    matchoptions.init.offset = 0 ∧ matchoptions.init.vs = .VS_ALL ∧
    matchoptions.init.ct = .CT_INDEX ∧
    parse_match_options .nil matchoptions.init = (true, matchoptions.init) ∧
    ∀ (eng : pcre2_engine) (env : nif_env) (argv0 argv1 : Term),
      match_impl eng env argv0 argv1 (some .nil) = match_impl eng env argv0 argv1 none := by
  obtain ⟨_, f2, f3, f4⟩ := parse_match_options_fields list matchoptions.init o h
  exact ⟨f2, f3, f4, rfl, rfl, rfl, rfl, fun _ _ _ _ => rfl⟩

/-- Witness for C15: the list `[{capture, first}]` leaves the start offset
at 0 and the capture type at INDEX. -/
theorem C15_match_option_defaults_witness :
    ({ matchoptions.init with vs := .VS_FIRST } : matchoptions).offset = 0 ∧
      ({ matchoptions.init with vs := .VS_FIRST } : matchoptions).ct = .CT_INDEX :=
  ⟨(C15_match_option_defaults (Term.ofList [capture2 a_first])
      { matchoptions.init with vs := .VS_FIRST } rfl).1
      (by
        intro H hm
        simp only [Term.ofList, Term.cells, List.mem_singleton] at hm
        subst hm
        rintro ⟨x, hx⟩
        simp [capture2, a_capture, a_offset, enif_make_atom] at hx),
   (C15_match_option_defaults (Term.ofList [capture2 a_first])
      { matchoptions.init with vs := .VS_FIRST } rfl).2.2.1
      (by
        intro H hm
        simp only [Term.ofList, Term.cells, List.mem_singleton] at hm
        subst hm
        rintro ⟨v, t, hx⟩
        simp [capture2] at hx)⟩

/-! ## The offset element -/

theorem match_impl_env_of_reaches_scan (eng : pcre2_engine) {env : nif_env}
    {argv0 argv1 : Term} {argv2 : Option Term} {subj : List Nat} {opts : matchoptions}
    {re : pcre2_code} (h : reaches_scan env argv0 argv1 argv2 subj opts re) :
    (match_impl eng env argv0 argv1 argv2).2 =
      { env with calls := env.calls ++
          [engine_call.match_data_create re, engine_call.scan re subj opts.offset] } := by
  obtain ⟨h1, h2, h3⟩ := h
  unfold match_impl
  simp only [h1, h2, h3]
  simp only [Bool.true_eq_false, if_false]
  split
  · rfl
  · split <;> rfl

theorem enif_get_uint_int {N : Int} (h0 : 0 ≤ N) (h1 : N < 4294967296) :
    enif_get_uint (.int N) = some N.toNat := by
  simp [enif_get_uint, h0, h1]

theorem parse_match_options_loop_offset (N : Int) (h0 : 0 ≤ N) (h1 : N < 4294967296)
    (T : Term) (opts : matchoptions) :
    parse_match_options_loop (.cons (.tuple [a_offset, .int N]) T) opts =
      parse_match_options_loop T { opts with offset := N.toNat } := by
  rw [parse_match_options_loop]
  have hid : enif_is_identical a_offset a_offset = true := rfl
  simp [enif_get_tuple, hid, enif_get_uint_int h0 h1]

/-- C16 (as stated, refuted): the element `{offset, 4294967296}` carries a
non-negative integer, yet the option list does not parse and match returns
bad argument without calling the engine. -/
theorem C16_offset_counterexample :
    (parse_match_options (Term.ofList [.tuple [a_offset, .int 4294967296]])
        matchoptions.init).1 = false ∧
      match_impl engine_digits env_one_handle (.binary [120, 52, 50, 121]) (.resource 0)
        (some (Term.ofList [.tuple [a_offset, .int 4294967296]])) =
        (.badarg, env_one_handle) := by
  have h : (parse_match_options (Term.ofList [.tuple [a_offset, .int 4294967296]])
      matchoptions.init).1 = false := by rfl
  exact ⟨h, match_impl_badarg_of_parse_fails _ _ _ _ _ h⟩

/-- C16 (amended): for every integer `0 ≤ N < 2^32` the element `{offset, N}`
parses and sets the start offset to exactly `N`, which is the offset the
engine's scan is called with when no later element sets it again; for every
`X` that is not an integer in `0 .. 2^32 - 1` (negative, too large, or not an
integer) a list holding `{offset, X}` does not parse and match returns bad
argument. -/
theorem C16_offset_element :
    (∀ N : Int, 0 ≤ N → N < 4294967296 →
      (∀ (T : Term) (opts : matchoptions),
        parse_match_options_loop (.cons (.tuple [a_offset, .int N]) T) opts =
          parse_match_options_loop T { opts with offset := N.toNat }) ∧
      (∀ (T : Term) (opts o : matchoptions),
        parse_match_options_loop (.cons (.tuple [a_offset, .int N]) T) opts = (true, o) →
        (∀ H ∈ Term.cells T, ¬ is_offset_element H) → o.offset = N.toNat) ∧
      ∀ (eng : pcre2_engine) (env : nif_env) (argv0 argv1 : Term) (subj : List Nat)
        (re : pcre2_code),
        enif_inspect_iolist_as_binary argv0 = some subj →
        enif_get_resource env argv1 = some { re := some re } →
        (match_impl eng env argv0 argv1
            (some (Term.ofList [.tuple [a_offset, .int N]]))).2.calls =
          env.calls ++
            [engine_call.match_data_create re, engine_call.scan re subj N.toNat]) ∧
    (∀ x : Term, (∀ n : Int, 0 ≤ n → n < 4294967296 → x ≠ .int n) →
      ∀ list : Term, Term.tuple [a_offset, x] ∈ Term.cells list →
      (parse_match_options list matchoptions.init).1 = false ∧
      ∀ (eng : pcre2_engine) (env : nif_env) (argv0 argv1 : Term),
        match_impl eng env argv0 argv1 (some list) = (.badarg, env)) := by
  constructor
  · intro N h0 h1
    refine ⟨parse_match_options_loop_offset N h0 h1, ?_, ?_⟩
    · intro T opts o hp hno
      rw [parse_match_options_loop_offset N h0 h1] at hp
      exact (parse_match_options_loop_fields _ T _ o rfl hp).2.1 hno
    · intro eng env argv0 argv1 subj re hs hr
      have hparse : parse_match_options (Term.ofList [.tuple [a_offset, .int N]])
          matchoptions.init = (true, { matchoptions.init with offset := N.toNat }) := by
        unfold parse_match_options
        simp only [Term.ofList, enif_is_empty_list]
        rw [if_neg (by simp), parse_match_options_loop_offset N h0 h1]
        rfl
      have hreach : reaches_scan env argv0 argv1
          (some (Term.ofList [.tuple [a_offset, .int N]])) subj
          { matchoptions.init with offset := N.toNat } re := ⟨hs, hparse, hr⟩
      rw [match_impl_env_of_reaches_scan eng hreach]
  · intro x hx list hmem
    have hf : (parse_match_options list matchoptions.init).1 = false :=
      (parse_match_options_fails_iff list matchoptions.init).mpr
        ⟨_, hmem, Or.inr ⟨x, rfl, hx⟩⟩
    exact ⟨hf, fun eng env argv0 argv1 =>
      match_impl_badarg_of_parse_fails eng env argv0 argv1 list hf⟩

/-- Witness for C16 (amended): `{offset, 2}` reaches the engine as the start
offset 2, and `{offset, -1}` makes match return bad argument. -/
theorem C16_offset_element_witness :
    (match_impl engine_digits env_one_handle (.binary [120, 52, 50, 121]) (.resource 0)
        (some (Term.ofList [.tuple [a_offset, .int 2]]))).2.calls =
      [] ++ [engine_call.match_data_create { id := 0 },
        engine_call.scan { id := 0 } [120, 52, 50, 121] (2 : Int).toNat] ∧
    match_impl engine_digits env_one_handle (.binary [120, 52, 50, 121]) (.resource 0)
        (some (Term.ofList [.tuple [a_offset, .int (-1)]])) = (.badarg, env_one_handle) :=
  ⟨(C16_offset_element.1 2 (by decide) (by decide)).2.2 engine_digits env_one_handle
      (.binary [120, 52, 50, 121]) (.resource 0) [120, 52, 50, 121] { id := 0 } rfl rfl,
   (C16_offset_element.2 (.int (-1))
      (fun n h0 _ hn => by
        cases hn
        exact absurd h0 (by decide))
      (Term.ofList [.tuple [a_offset, .int (-1)]])
      (by simp [Term.ofList, Term.cells])).2 engine_digits env_one_handle
      (.binary [120, 52, 50, 121]) (.resource 0)⟩

/-! ## Compile results -/

/-- C17 (as stated, refuted): for a pattern of `2^32` letters followed by
`(`, rejected by the engine with code 114 at byte offset `2^32 + 1`, compile
returns `{error, 114, 1}`, not `{error, 114, 4294967297}`. -/
theorem C17_compile_error_counterexample :
    (compile_impl engine_far_error env_one_handle
        (.binary (List.replicate 4294967296 97 ++ [40])) none).1 =
      .term (.tuple [a_error, .int 114, .int 1]) ∧
    (compile_impl engine_far_error env_one_handle
        (.binary (List.replicate 4294967296 97 ++ [40])) none).1 ≠
      .term (.tuple [a_error, .int 114, .int 4294967297]) := by
  have h : (compile_impl engine_far_error env_one_handle
      (.binary (List.replicate 4294967296 97 ++ [40])) none).1 =
      .term (.tuple [a_error, .int 114, .int 1]) := by rfl
  refine ⟨h, ?_⟩
  rw [h]
  simp

/-- C17 (amended): for an iolist pattern, a handle that could be allocated and
compile options that parse, a failed engine compilation with code `c` and byte
offset `o` makes compile return exactly `{error, c, o mod 2^32}` (the offset is
cast to a 32-bit unsigned, so it is `o` itself whenever `o < 2^32`), with no
message string; a successful compilation makes it return `{ok, Handle}` where
the handle is a new resource holding the compiled pattern. -/
theorem C17_compile_result (eng : pcre2_engine) (env : nif_env) (argv0 : Term)
    (argv1 : Option Term) (pdata : List Nat) (mask : Nat)
    (hp : enif_inspect_iolist_as_binary argv0 = some pdata)
    (halloc : env.alloc_resource_ok = true)
    (hparse : (match argv1 with
      | some list => parse_compile_options list 0
      | none => (true, 0)) = (true, mask)) :
    (∀ (c : Int) (o : Nat), eng.pcre2_compile pdata mask = .error (c, o) →
      (compile_impl eng env argv0 argv1).1 =
          .term (.tuple [a_error, .int c, .int ((o % 2 ^ 32 : Nat) : Int)]) ∧
        (o < 2 ^ 32 →
          (compile_impl eng env argv0 argv1).1 =
            .term (.tuple [a_error, .int c, .int (o : Int)]))) ∧
    (∀ code : pcre2_code, eng.pcre2_compile pdata mask = .ok code →
      (compile_impl eng env argv0 argv1).1 =
          .term (.tuple [a_ok, .resource env.resources.length]) ∧
        enif_get_resource (compile_impl eng env argv0 argv1).2
          (.resource env.resources.length) = some { re := some code }) := by
  obtain ⟨res, ok, calls⟩ := env
  simp only at halloc
  subst halloc
  constructor
  · intro c o hc
    have h1 : (compile_impl eng ⟨res, true, calls⟩ argv0 argv1).1 =
        .term (.tuple [a_error, .int c, .int ((o % 2 ^ 32 : Nat) : Int)]) := by
      unfold compile_impl
      simp only [hp, hparse, Bool.true_eq_false, if_false, hc]
      rfl
    refine ⟨h1, ?_⟩
    intro ho
    rw [h1, Nat.mod_eq_of_lt ho]
  · intro code hc
    constructor
    · unfold compile_impl
      simp only [hp, hparse, Bool.true_eq_false, if_false, hc]
      rfl
    · unfold compile_impl
      simp only [hp, hparse, Bool.true_eq_false, if_false, hc]
      simp [enif_get_resource]

/-- Witness for C17 (amended): the pattern `"("` rejected with code 114 at
offset 4294967297 by the concrete engine, and `"a"` accepted by another. -/
theorem C17_compile_result_witness :
    (compile_impl engine_far_error env_one_handle (.binary [40]) none).1 =
        .term (.tuple [a_error, .int 114, .int ((4294967297 % 2 ^ 32 : Nat) : Int)]) ∧
    (compile_impl engine_digits env_one_handle (.binary [97]) none).1 =
        .term (.tuple [a_ok, .resource env_one_handle.resources.length]) :=
  ⟨((C17_compile_result engine_far_error env_one_handle (.binary [40]) none [40] 0
      rfl rfl rfl).1 114 4294967297 rfl).1,
   ((C17_compile_result engine_digits env_one_handle (.binary [97]) none [97] 0
      rfl rfl rfl).2 { id := 0 } rfl).1⟩

/-! ## Allocation failures -/

/-- C18 (code at the failing input): when the match-data block cannot be
allocated (the engine hands back a null pointer and its scan gives up with
`PCRE2_ERROR_NULL`), match returns `nomatch`; when the handle cannot be
allocated, compile returns `{error, enif_alloc_resource}`. -/
theorem C18_match_data_allocation_failure :
    engine_no_memory.pcre2_match_data_create_from_pattern { id := 0 } = none ∧
      (match_impl engine_no_memory env_one_handle (.binary [97]) (.resource 0) none).1 =
        .term a_nomatch ∧
      (compile_impl engine_digits env_no_memory (.binary [97]) none).1 =
        .term (.tuple [a_error, a_err_enif_alloc_resource]) := by
  refine ⟨rfl, rfl, rfl⟩

/-! ## Match-time caseless -/

/-- C19 (code at the failing input): the bare tag `caseless` is refused by
parse_match_options, alone or after a valid element, and match with the
options `[caseless]` returns bad argument without calling the engine. -/
theorem C19_match_caseless_refused :
    (parse_match_options (Term.ofList [a_caseless]) matchoptions.init).1 = false ∧
      (parse_match_options (Term.ofList [capture2 a_first, a_caseless])
        matchoptions.init).1 = false ∧
      (parse_match_options (Term.ofList [capture2 a_first, a_caseless])
        matchoptions.init).2.caseless = false ∧
      match_impl engine_digits env_one_handle (.binary [120, 52, 50, 121]) (.resource 0)
        (some (Term.ofList [a_caseless])) = (.badarg, env_one_handle) := by
  refine ⟨rfl, rfl, rfl, ?_⟩
  exact match_impl_badarg_of_parse_fails _ _ _ _ _ rfl

/-! ## Reads of the offset vector -/

theorem match_loop_reads_fst (subj ovec : List Nat) (ct : capture_type) (first_ix : Int) :
    ∀ (n : Nat) (i : Int) (list : Term) (reads : List Int),
      (i - first_ix + 1).toNat ≤ n →
      (match_loop_reads subj ovec ct first_ix i list reads).1 =
        match_loop subj ovec ct first_ix i list := by
  intro n
  induction n with
  | zero =>
    intro i list reads hn
    rw [match_loop_reads, match_loop, if_neg (by omega), if_neg (by omega)]
  | succ n ih =>
    intro i list reads hn
    rw [match_loop_reads, match_loop]
    by_cases hc : first_ix ≤ i
    · rw [if_pos hc, if_pos hc]
      cases ovec_read ovec i with
      | none => rfl
      | some s =>
        cases ovec_read ovec (i + 1) with
        | none => rfl
        | some e =>
          simp only
          cases mres subj s e ct with
          | none => rfl
          | some res =>
            simp only
            exact ih (i - 2) _ _ (by omega)
    · rw [if_neg hc, if_neg hc]

theorem match_loop_reads_snd (subj ovec : List Nat) (ct : capture_type) (first_ix : Int) :
    ∀ (n : Nat) (i : Int) (list : Term) (reads : List Int),
      (i - first_ix + 1).toNat ≤ n →
      ∀ x ∈ (match_loop_reads subj ovec ct first_ix i list reads).2,
        x ∈ reads ∨ (first_ix ≤ x ∧ x ≤ i + 1) := by
  intro n
  induction n with
  | zero =>
    intro i list reads hn x hx
    rw [match_loop_reads, if_neg (by omega)] at hx
    exact Or.inl hx
  | succ n ih =>
    intro i list reads hn x hx
    rw [match_loop_reads] at hx
    by_cases hc : first_ix ≤ i
    · rw [if_pos hc] at hx
      have hnew : ∀ y ∈ reads ++ [i, i + 1], y ∈ reads ∨ (first_ix ≤ y ∧ y ≤ i + 1) := by
        intro y hy
        rcases List.mem_append.mp hy with h | h
        · exact Or.inl h
        · right
          simp only [List.mem_cons, List.mem_singleton, List.not_mem_nil, or_false] at h
          rcases h with h | h <;> subst h <;> omega
      cases hs : ovec_read ovec i with
      | none =>
        rw [hs] at hx
        exact hnew x hx
      | some s =>
        cases he : ovec_read ovec (i + 1) with
        | none =>
          rw [hs, he] at hx
          exact hnew x hx
        | some e =>
          rw [hs, he] at hx
          simp only at hx
          cases hm : mres subj s e ct with
          | none =>
            rw [hm] at hx
            exact hnew x hx
          | some res =>
            rw [hm] at hx
            simp only at hx
            rcases ih (i - 2) _ _ (by omega) x hx with h | h
            · exact hnew x h
            · right
              omega
    · rw [if_neg hc] at hx
      exact Or.inl hx

theorem match_result_reads_loop_eq (subj : List Nat) (opts : matchoptions)
    (md : pcre2_match_data) (h1 : opts.vs ≠ .VS_NONE) (h2 : opts.vs ≠ .VS_FIRST) :
    match_result_reads subj opts md =
      (match (match_loop_reads subj md.ovector opts.ct
          (if opts.vs = .VS_ALL_BUT_FIRST then 2 else 0)
          (last_ix_of md.ovector_count) .nil []).1 with
        | some list => nif_result.term (enif_make_tuple2 a_match list)
        | none => nif_result.undefined,
       (match_loop_reads subj md.ovector opts.ct
          (if opts.vs = .VS_ALL_BUT_FIRST then 2 else 0)
          (last_ix_of md.ovector_count) .nil []).2) := by
  unfold match_result_reads
  exact (if_neg h1).trans (if_neg h2)

theorem match_result_loop_eq (subj : List Nat) (opts : matchoptions)
    (md : pcre2_match_data) (h1 : opts.vs ≠ .VS_NONE) (h2 : opts.vs ≠ .VS_FIRST) :
    match_result subj opts md =
      match match_loop subj md.ovector opts.ct
          (if opts.vs = .VS_ALL_BUT_FIRST then 2 else 0)
          (last_ix_of md.ovector_count) .nil with
        | some list => nif_result.term (enif_make_tuple2 a_match list)
        | none => nif_result.undefined := by
  unfold match_result
  simp only [if_neg h1, if_neg h2]

theorem match_result_reads_fst (subj : List Nat) (opts : matchoptions)
    (md : pcre2_match_data) :
    (match_result_reads subj opts md).1 = match_result subj opts md := by
  by_cases h1 : opts.vs = .VS_NONE
  · unfold match_result_reads match_result
    simp only [if_pos h1]
  · by_cases h2 : opts.vs = .VS_FIRST
    · unfold match_result_reads match_result
      simp only [if_neg h1, if_pos h2]
    · have hfst := match_loop_reads_fst subj md.ovector opts.ct
        (if opts.vs = .VS_ALL_BUT_FIRST then 2 else 0)
        ((last_ix_of md.ovector_count -
          (if opts.vs = .VS_ALL_BUT_FIRST then 2 else 0) + 1).toNat)
        (last_ix_of md.ovector_count) .nil [] (le_refl _)
      have e := match_result_reads_loop_eq subj opts md h1 h2
      have e2 := match_result_loop_eq subj opts md h1 h2
      generalize match_loop_reads subj md.ovector opts.ct
        (if opts.vs = .VS_ALL_BUT_FIRST then 2 else 0)
        (last_ix_of md.ovector_count) .nil [] = r at hfst e
      generalize match_loop subj md.ovector opts.ct
        (if opts.vs = .VS_ALL_BUT_FIRST then 2 else 0)
        (last_ix_of md.ovector_count) .nil = q at hfst e2
      rw [e, e2]
      obtain ⟨a, b⟩ := r
      simp only at hfst
      subst hfst
      rfl

theorem match_result_reads_none (subj : List Nat) (opts : matchoptions)
    (md : pcre2_match_data) (h : opts.vs = .VS_NONE) :
    (match_result_reads subj opts md).2 = [] := by
  unfold match_result_reads
  rw [if_pos h]

theorem match_result_reads_first (subj : List Nat) (opts : matchoptions)
    (md : pcre2_match_data) (h : opts.vs = .VS_FIRST) :
    (match_result_reads subj opts md).2 = [0, 1] := by
  have h1 : opts.vs ≠ .VS_NONE := by rw [h]; decide
  unfold match_result_reads
  rw [if_neg h1, if_pos h]

theorem match_result_reads_loop_mem (subj : List Nat) (opts : matchoptions)
    (md : pcre2_match_data) (h1 : opts.vs ≠ .VS_NONE) (h2 : opts.vs ≠ .VS_FIRST)
    (x : Int) (hx : x ∈ (match_result_reads subj opts md).2) :
    (if opts.vs = .VS_ALL_BUT_FIRST then (2 : Int) else 0) ≤ x ∧
      x ≤ last_ix_of md.ovector_count + 1 := by
  have hb := match_loop_reads_snd subj md.ovector opts.ct
    (if opts.vs = .VS_ALL_BUT_FIRST then 2 else 0)
    ((last_ix_of md.ovector_count -
      (if opts.vs = .VS_ALL_BUT_FIRST then 2 else 0) + 1).toNat)
    (last_ix_of md.ovector_count) .nil [] (le_refl _) x
  have e := match_result_reads_loop_eq subj opts md h1 h2
  generalize match_loop_reads subj md.ovector opts.ct
    (if opts.vs = .VS_ALL_BUT_FIRST then 2 else 0)
    (last_ix_of md.ovector_count) .nil [] = r at hb e
  rw [e] at hx
  obtain ⟨a, b⟩ := r
  simp only at hx hb
  rcases hb hx with h | h
  · simp at h
  · exact h

theorem match_result_reads_loop_empty (subj : List Nat) (opts : matchoptions)
    (md : pcre2_match_data) (h : opts.vs = .VS_ALL_BUT_FIRST)
    (hlast : last_ix_of md.ovector_count = 0) :
    (match_result_reads subj opts md).2 = [] := by
  have h1 : opts.vs ≠ .VS_NONE := by rw [h]; decide
  have h2 : opts.vs ≠ .VS_FIRST := by rw [h]; decide
  have e := match_result_reads_loop_eq subj opts md h1 h2
  have hl : match_loop_reads subj md.ovector opts.ct
      (if opts.vs = .VS_ALL_BUT_FIRST then 2 else 0)
      (last_ix_of md.ovector_count) .nil [] = (some .nil, []) := by
    rw [hlast, if_pos h, match_loop_reads, if_neg (by omega)]
  rw [hl] at e
  rw [e]

/-- C20: for a block of `n ≥ 1` offset pairs (`2n` entries), every value-spec
and every capture type, every index of the offset vector read while the result
is built lies in `0 .. 2n - 1`; value-spec NONE reads no entry, FIRST reads
entries 0 and 1 only, and ALL_BUT_FIRST with `n = 1` reads no entry. -/
theorem C20_reads_in_bounds (subj : List Nat) (opts : matchoptions) (md : pcre2_match_data)
    (hmd : ovector_ok md) :
    (match_result_reads subj opts md).1 = match_result subj opts md ∧
    (∀ x ∈ (match_result_reads subj opts md).2,
      0 ≤ x ∧ x < 2 * (md.ovector_count : Int)) ∧
    (opts.vs = .VS_NONE → (match_result_reads subj opts md).2 = []) ∧
    (opts.vs = .VS_FIRST → (match_result_reads subj opts md).2 = [0, 1]) ∧
    (opts.vs = .VS_ALL_BUT_FIRST → md.ovector_count = 1 →
      (match_result_reads subj opts md).2 = []) := by
  obtain ⟨hn1, hn2, _⟩ := hmd
  have hlast := last_ix_of_eq hn1 hn2
  refine ⟨match_result_reads_fst subj opts md, ?_, match_result_reads_none subj opts md,
    match_result_reads_first subj opts md, ?_⟩
  · intro x hx
    by_cases h1 : opts.vs = .VS_NONE
    · rw [match_result_reads_none subj opts md h1] at hx
      simp at hx
    · by_cases h2 : opts.vs = .VS_FIRST
      · rw [match_result_reads_first subj opts md h2] at hx
        simp only [List.mem_cons, List.mem_singleton, List.not_mem_nil, or_false] at hx
        rcases hx with h | h <;> subst h <;> omega
      · obtain ⟨b1, b2⟩ := match_result_reads_loop_mem subj opts md h1 h2 x hx
        rw [hlast] at b2
        constructor
        · split at b1 <;> omega
        · omega
  · intro h hone
    apply match_result_reads_loop_empty subj opts md h
    rw [hlast, hone]
    rfl

/-- Witness for C20: the three-pair block of the `(a)(b)?` scan under
value-spec FIRST and capture type BINARY reads entries 0 and 1, both below 6. -/
theorem C20_reads_in_bounds_witness :
    (match_result_reads [97] { matchoptions.init with vs := .VS_FIRST, ct := .CT_BINARY }
        { ovector_count := 3, ovector := [0, 1, 0, 1, PCRE2_UNSET, PCRE2_UNSET] }).2 =
      [0, 1] ∧
    (0 ≤ (1 : Int) ∧ (1 : Int) < 2 * ((3 : Nat) : Int)) :=
  ⟨(C20_reads_in_bounds [97] { matchoptions.init with vs := .VS_FIRST, ct := .CT_BINARY }
      { ovector_count := 3, ovector := [0, 1, 0, 1, PCRE2_UNSET, PCRE2_UNSET] }
      ⟨by decide, by decide, rfl⟩).2.2.2.1 rfl,
   (C20_reads_in_bounds [97] { matchoptions.init with vs := .VS_FIRST, ct := .CT_BINARY }
      { ovector_count := 3, ovector := [0, 1, 0, 1, PCRE2_UNSET, PCRE2_UNSET] }
      ⟨by decide, by decide, rfl⟩).2.1 1
      (by
        rw [match_result_reads_first _ _ _ rfl]
        simp)⟩

/-! ## Outcomes of a match call -/

theorem match_result_ne_badarg (subj : List Nat) (opts : matchoptions)
    (md : pcre2_match_data) : match_result subj opts md ≠ .badarg := by
  unfold match_result
  simp only
  split
  · simp
  · split
    · split
      · split
        · split <;> simp
        · simp
      · simp
    · split <;> simp

theorem match_impl_badarg_of_not_iolist (eng : pcre2_engine) (env : nif_env)
    (argv0 argv1 : Term) (argv2 : Option Term)
    (h : enif_inspect_iolist_as_binary argv0 = none) :
    match_impl eng env argv0 argv1 argv2 = (.badarg, env) := by
  unfold match_impl
  simp only [h]

theorem match_impl_badarg_of_dead_handle (eng : pcre2_engine) (env : nif_env)
    (argv0 argv1 : Term) (argv2 : Option Term)
    (h : ∀ re, enif_get_resource env argv1 ≠ some { re := some re }) :
    match_impl eng env argv0 argv1 argv2 = (.badarg, env) := by
  unfold match_impl
  cases enif_inspect_iolist_as_binary argv0 with
  | none => rfl
  | some subj =>
    simp only
    split
    · rfl
    · cases hr : enif_get_resource env argv1 with
      | none => rfl
      | some handle =>
        obtain ⟨re⟩ := handle
        cases re with
        | none => rfl
        | some code => exact absurd hr (h code)

theorem match_impl_ne_badarg_of_reaches_scan (eng : pcre2_engine) {env : nif_env}
    {argv0 argv1 : Term} {argv2 : Option Term} {subj : List Nat} {opts : matchoptions}
    {re : pcre2_code} (h : reaches_scan env argv0 argv1 argv2 subj opts re) :
    (match_impl eng env argv0 argv1 argv2).1 ≠ .badarg := by
  rw [match_impl_of_reaches_scan eng h]
  split
  · simp
  · split
    · simp
    · exact match_result_ne_badarg _ _ _

theorem reaches_scan_of_checks (env : nif_env) (argv0 argv1 : Term) (argv2 : Option Term)
    (subj : List Nat) (re : pcre2_code)
    (h0 : enif_inspect_iolist_as_binary argv0 = some subj)
    (hp : ¬ ∃ list, argv2 = some list ∧
      (parse_match_options list matchoptions.init).1 = false)
    (hr : enif_get_resource env argv1 = some { re := some re }) :
    ∃ opts, reaches_scan env argv0 argv1 argv2 subj opts re := by
  cases argv2 with
  | none => exact ⟨matchoptions.init, h0, rfl, hr⟩
  | some list =>
    have h1 : (parse_match_options list matchoptions.init).1 = true := by
      by_contra hn
      exact hp ⟨list, rfl, by simpa using hn⟩
    refine ⟨(parse_match_options list matchoptions.init).2, h0, ?_, hr⟩
    exact Prod.ext h1 rfl

/-- C21: a match call returns bad argument exactly when its first argument is
not an iolist, or its option list does not parse, or its second argument is
not a resource holding a live compiled pattern; the engine is then not called.
In every other case the match-data block is created and the scan is called
once, and the result is `nomatch`, the bare atom `match` or `{match, Values}`
(given a well-formed block whose pairs can be materialised). -/
theorem C21_match_outcomes (eng : pcre2_engine) (env : nif_env) (argv0 argv1 : Term)
    (argv2 : Option Term) :
    ((match_impl eng env argv0 argv1 argv2).1 = .badarg ↔
      (enif_inspect_iolist_as_binary argv0 = none ∨
        (∃ list, argv2 = some list ∧
          (parse_match_options list matchoptions.init).1 = false) ∨
        ∀ re, enif_get_resource env argv1 ≠ some { re := some re })) ∧
    ((match_impl eng env argv0 argv1 argv2).1 = .badarg →
      (match_impl eng env argv0 argv1 argv2).2 = env) ∧
    (∀ (subj : List Nat) (opts : matchoptions) (re : pcre2_code),
      reaches_scan env argv0 argv1 argv2 subj opts re →
      (match_impl eng env argv0 argv1 argv2).2.calls =
          env.calls ++
            [engine_call.match_data_create re, engine_call.scan re subj opts.offset] ∧
      ∀ (rc : Int) (omd : Option pcre2_match_data),
        eng.pcre2_match re subj opts.offset
          (eng.pcre2_match_data_create_from_pattern re) = (rc, omd) →
        (0 ≤ rc → ∃ md, omd = some md ∧ ovector_ok md ∧
          ∀ k, k < md.ovector_count → (pair_value subj md.ovector opts.ct k).isSome) →
        (match_impl eng env argv0 argv1 argv2).1 = .term a_nomatch ∨
          is_match_outcome (match_impl eng env argv0 argv1 argv2).1) := by
  have hback : (enif_inspect_iolist_as_binary argv0 = none ∨
      (∃ list, argv2 = some list ∧
        (parse_match_options list matchoptions.init).1 = false) ∨
      ∀ re, enif_get_resource env argv1 ≠ some { re := some re }) →
      match_impl eng env argv0 argv1 argv2 = (.badarg, env) := by
    rintro (h | ⟨list, hl, hf⟩ | h)
    · exact match_impl_badarg_of_not_iolist eng env argv0 argv1 argv2 h
    · rw [hl]
      exact match_impl_badarg_of_parse_fails eng env argv0 argv1 list hf
    · exact match_impl_badarg_of_dead_handle eng env argv0 argv1 argv2 h
  have hforw : (match_impl eng env argv0 argv1 argv2).1 = .badarg →
      (enif_inspect_iolist_as_binary argv0 = none ∨
        (∃ list, argv2 = some list ∧
          (parse_match_options list matchoptions.init).1 = false) ∨
        ∀ re, enif_get_resource env argv1 ≠ some { re := some re }) := by
    intro hb
    cases h0 : enif_inspect_iolist_as_binary argv0 with
    | none => exact Or.inl rfl
    | some subj =>
      right
      by_cases hp : ∃ list, argv2 = some list ∧
          (parse_match_options list matchoptions.init).1 = false
      · exact Or.inl hp
      · right
        intro re hr
        obtain ⟨opts, hreach⟩ := reaches_scan_of_checks env argv0 argv1 argv2 subj re h0 hp hr
        exact match_impl_ne_badarg_of_reaches_scan eng hreach hb
  refine ⟨⟨hforw, fun h => by rw [hback h]⟩, fun hb => by rw [hback (hforw hb)], ?_⟩
  intro subj opts re hreach
  refine ⟨by rw [match_impl_env_of_reaches_scan eng hreach], ?_⟩
  intro rc omd hscan hwf
  rw [match_impl_of_reaches_scan eng hreach, hscan]
  simp only
  by_cases hrc : rc < 0
  · left
    rw [if_pos (by simpa using hrc)]
  · right
    rw [if_neg (by simpa using hrc)]
    obtain ⟨md, hmd, hok, hval⟩ := hwf (not_lt.mp hrc)
    subst hmd
    exact match_result_is_outcome subj opts md hok hval

/-- Witness for C21: the `\d+` scan with default options reaches the engine
and gives a match outcome. -/
theorem C21_match_outcomes_witness :
    (match_impl engine_digits env_one_handle (.binary [120, 52, 50, 121]) (.resource 0)
        none).2.calls =
      [] ++ [engine_call.match_data_create { id := 0 },
        engine_call.scan { id := 0 } [120, 52, 50, 121] 0] :=
  ((C21_match_outcomes engine_digits env_one_handle (.binary [120, 52, 50, 121])
    (.resource 0) none).2.2 [120, 52, 50, 121] matchoptions.init { id := 0 }
    ⟨rfl, rfl, rfl⟩).1

/-! ## A capture element without a type -/

/-- C22 (as stated, refuted): the list `[{capture, all, binary}, {capture, first}]`
parses, its last capture element carries no type, and yet the resulting
capture type is BINARY: a match of the `(a)(b)?` scan returns the binary `"a"`. -/
theorem C22_untyped_capture_counterexample :
    (parse_match_options (Term.ofList [capture3 a_all a_binary, capture2 a_first])
        matchoptions.init).1 = true ∧
      (parse_match_options (Term.ofList [capture3 a_all a_binary, capture2 a_first])
        matchoptions.init).2.vs = .VS_FIRST ∧
      (parse_match_options (Term.ofList [capture3 a_all a_binary, capture2 a_first])
        matchoptions.init).2.ct = .CT_BINARY ∧
      (parse_match_options (Term.ofList [capture3 a_all a_binary, capture2 a_first])
        matchoptions.init).2.ct ≠ .CT_INDEX ∧
      (match_impl engine_a_opt_b env_one_handle (.binary [97]) (.resource 0)
        (some (Term.ofList [capture3 a_all a_binary, capture2 a_first]))).1 =
        .term (match_term [.binary [97]]) := by
  refine ⟨rfl, rfl, rfl, by decide, ?_⟩
  have hreach : reaches_scan env_one_handle (.binary [97]) (.resource 0)
      (some (Term.ofList [capture3 a_all a_binary, capture2 a_first])) [97]
      { matchoptions.init with vs := .VS_FIRST, ct := .CT_BINARY } { id := 0 } :=
    ⟨rfl, rfl, rfl⟩
  have hscan : engine_a_opt_b.pcre2_match { id := 0 } [97] 0
      (engine_a_opt_b.pcre2_match_data_create_from_pattern { id := 0 }) =
      (2, some { ovector_count := 3, ovector := [0, 1, 0, 1, PCRE2_UNSET, PCRE2_UNSET] }) :=
    rfl
  exact match_impl_first engine_a_opt_b hreach hscan (by decide) rfl (.binary [97]) rfl

/-- C22 (amended): a `{capture, ValueSpec}` element leaves the capture type
as it was before the element, and so does every later element that is not a
`{capture, V, T}`; the resulting capture type is INDEX when no element of the
list is a `{capture, V, T}`, and otherwise the type in force before the
untyped element (BINARY after an earlier `{capture, V, binary}`). -/
theorem C22_untyped_capture_keeps_type :
    (∀ (v T : Term) (opts o : matchoptions),
      parse_match_options_loop (.cons (capture2 v) T) opts = (true, o) →
      (∀ H ∈ Term.cells T, ¬ is_typed_capture_element H) → o.ct = opts.ct) ∧
    (∀ (list : Term) (o : matchoptions),
      parse_match_options list matchoptions.init = (true, o) →
      (∀ H ∈ Term.cells list, ¬ is_typed_capture_element H) → o.ct = .CT_INDEX) := by
  constructor
  · intro v T opts o hp hno
    refine (parse_match_options_loop_fields _ (.cons (capture2 v) T) opts o rfl hp).2.2.2 ?_
    intro H hm
    simp only [Term.cells, List.mem_cons] at hm
    rcases hm with h | h
    · subst h
      rintro ⟨x, t, hx⟩
      simp [capture2] at hx
    · exact hno H h
  · intro list o hp hno
    exact (parse_match_options_fields list matchoptions.init o hp).2.2.2 hno

/-- Witness for C22 (amended): after `{capture, all, binary}` the element
`{capture, first}` keeps the capture type BINARY. -/
theorem C22_untyped_capture_keeps_type_witness :
    ({ matchoptions.init with vs := .VS_FIRST, ct := .CT_BINARY } : matchoptions).ct =
      ({ matchoptions.init with ct := .CT_BINARY } : matchoptions).ct :=
  C22_untyped_capture_keeps_type.1 a_first .nil { matchoptions.init with ct := .CT_BINARY }
    { matchoptions.init with vs := .VS_FIRST, ct := .CT_BINARY } rfl
    (by
      intro H hm
      simp [Term.cells] at hm)

/-! ## INDEX values and 32-bit integers -/

theorem to_int_range (x : Nat) :
    -2 ^ 31 ≤ to_int x ∧ to_int x < 2 ^ 31 ∧ to_int x % 2 ^ 32 = (x : Int) % 2 ^ 32 := by
  unfold to_int
  split <;> omega

theorem size_sub_mod (s e : Nat) :
    ((size_sub e s : Nat) : Int) % 2 ^ 32 = ((e : Int) - s) % 2 ^ 32 := by
  unfold size_sub
  omega

/-- C23: for a set pair `(start, end)`, capture type INDEX reports
`(start, end - start)` exactly, both components non-negative, whenever
`start ≤ end < 2^31`.  In general both components pass through a 32-bit signed
integer: they lie in `-2^31 .. 2^31 - 1` and agree with `start` and
`end - start` modulo `2^32`, so a start of `2^31` or more, or a length of
`2^31` or more, is not reported as it is. -/
theorem C23_index_through_int (subj : List Nat) (s e : Nat) (hs : s ≠ PCRE2_UNSET) :
    (s ≤ e → e < 2 ^ 31 →
      mres subj s e .CT_INDEX = some (.tuple [.int (s : Int), .int ((e - s : Nat) : Int)]) ∧
        0 ≤ (s : Int) ∧ 0 ≤ ((e - s : Nat) : Int)) ∧
    ∃ l r : Int,
      mres subj s e .CT_INDEX = some (.tuple [.int l, .int r]) ∧
      -2 ^ 31 ≤ l ∧ l < 2 ^ 31 ∧ -2 ^ 31 ≤ r ∧ r < 2 ^ 31 ∧
      l % 2 ^ 32 = (s : Int) % 2 ^ 32 ∧ r % 2 ^ 32 = ((e : Int) - s) % 2 ^ 32 ∧
      (2 ^ 31 ≤ s → l ≠ (s : Int)) ∧
      (s ≤ e → 2 ^ 31 ≤ e - s → r ≠ ((e - s : Nat) : Int)) := by
  have hm : mres subj s e .CT_INDEX =
      some (.tuple [.int (to_int s), .int (to_int (size_sub e s))]) := by
    simp only [mres, if_neg hs, enif_make_tuple2, enif_make_int]
  constructor
  · intro hse he
    refine ⟨?_, by omega, by omega⟩
    have hc : ((e - s : Nat) : Int) = (e : Int) - s := by omega
    rw [hm, to_int_of_lt (by omega), to_int_size_sub (by omega) (by omega), hc]
  · obtain ⟨l1, l2, l3⟩ := to_int_range s
    obtain ⟨r1, r2, r3⟩ := to_int_range (size_sub e s)
    have r4 := size_sub_mod s e
    refine ⟨to_int s, to_int (size_sub e s), hm, l1, l2, r1, r2, l3, r3.trans r4, ?_, ?_⟩
    · intro h
      omega
    · intro _ h
      omega

/-- Witness for C23: the pair `(1, 3)`. -/
theorem C23_index_through_int_witness :
    mres [120, 52, 50, 121] 1 3 .CT_INDEX =
        some (.tuple [.int ((1 : Nat) : Int), .int ((3 - 1 : Nat) : Int)]) ∧
      0 ≤ ((1 : Nat) : Int) ∧ 0 ≤ ((3 - 1 : Nat) : Int) :=
  (C23_index_through_int [120, 52, 50, 121] 1 3 (by decide)).1
    (by decide) (by decide)

end Pcre2Nif
